import Mathlib

/-!
Verification of the collective-instance placement and action-ordering core of
the Pacemaker scheduler, as shallowly embedded from the repository sources
(clone/bundle instance placement and interleaved ordering, the instance-state
summarizer, the collective action-flag summary, and the text option-list
formatter).  Scores are C ints with the sentinel INFINITY = 1000000; node
counts and instance limits are the nonnegative counters the source manipulates
and are modelled as Nat; glib hash tables keyed by node id are modelled as
association lists looked up by node id.  Functions of the repository that are
outside the given sources are modelled from the specification and are marked
as such in their doc comments.
-/

namespace Pacemaker

/-- The score sentinel used for plus infinity (the C macro INFINITY); a score
of -INFINITY on a node bans the resource from that node. -/
def INFINITY : Int := 1000000

/-- A cluster node (pe_node_t details): identity plus the two availability
predicates the placement code consults.  pcmk__node_available is outside these
sources; the spec treats availability as an opaque predicate of the node, so
each node carries the result of the non-strict call (availLoose, for
pcmk__node_available(node, false, false)) and of the strict call (availStrict,
for pcmk__node_available(node, true, false)). -/
structure ClusterNode where
  nid : Nat
  availLoose : Bool
  availStrict : Bool
deriving DecidableEq, Repr

/-- A per-resource view of a node (pe_node_t): shared details plus the
resource-private weight and count. -/
structure NodeView where
  node : ClusterNode
  weight : Int
  count : Nat
deriving DecidableEq, Repr

/-- Look up a node id in a node table (g_hash_table_lookup keyed by node id). -/
def topLookup (table : List NodeView) (nid : Nat) : Option NodeView :=
  table.find? (fun nv => nv.node.nid == nid)

/-- A colocation constraint edge (pcmk__colocation_t): identity and score.
pcmk__colocation_has_influence is outside these sources; the spec says an
edge has influence on a child iff the edge's policy and the child's
managedness permit it, supplied as a predicate, so the edge carries the set
of child resource ids it has influence on. -/
structure Colocation where
  cid : Nat
  score : Int
  influenced : List Nat
deriving DecidableEq, Repr

/-- Modelled from the spec: whether a colocation edge has influence on the
child with the given resource id. -/
def pcmk__colocation_has_influence (cons : Colocation) (childId : Nat) : Bool :=
  cons.influenced.contains childId

/-- A clone instance or bundle replica container (pe_resource_t), with the
flags, node table, current/assigned location and colocation lists that the
placement code reads and writes.  runningOn models the head of the running_on
list (pe__current_node); assignedNode models fns->location(rsc, NULL, FALSE). -/
structure Instance where
  rid : Nat
  orphan : Bool
  provisional : Bool
  allocating : Bool
  managed : Bool
  failed : Bool
  allowedNodes : List NodeView
  runningOn : Option ClusterNode
  assignedNode : Option ClusterNode
  rscCons : List Colocation
  rscConsLhs : List Colocation
deriving DecidableEq, Repr

/-- The collective (clone or bundle) being assigned: its own allowed-node
table, which is the top-allowed view (pcmk__top_allowed_node walks the parent
chain to the outermost ancestor, which for an instance is this collective),
and its colocation lists. -/
structure Collective where
  allowedNodes : List NodeView
  rscCons : List Colocation
  rscConsLhs : List Colocation
deriving DecidableEq, Repr

/-- A location constraint record produced by resource_location (the pin to a
score for a reason). -/
structure LocationRecord where
  rid : Nat
  score : Int
  reason : String
deriving DecidableEq, Repr

/-- Modelled from the spec: pcmk__add_this_with adds a "this with" colocation
to the child's outgoing list (the source keeps the list ordered; only
membership and relative input order matter to the claims). -/
def pcmk__add_this_with (child : Instance) (cons : Colocation) : Instance :=
  { child with rscCons := child.rscCons ++ [cons] }

/-- Modelled from the spec: pcmk__add_with_this adds an "other with this"
colocation to the child's incoming list. -/
def pcmk__add_with_this (child : Instance) (cons : Colocation) : Instance :=
  { child with rscConsLhs := child.rscConsLhs ++ [cons] }

/-- append_parent_colocation: copy the parent's outgoing colocations onto the
child when all is set or the score is negative or plus infinity, and the
parent's incoming colocations onto the child when the edge has influence on
the child and all is set or the score is negative. -/
def append_parent_colocation (rsc : Collective) (child : Instance) (all : Bool) : Instance :=
  (rsc.rscConsLhs.foldl
    (fun ch cons =>
      if !pcmk__colocation_has_influence cons ch.rid then ch
      else if all = true ∨ cons.score < 0 then pcmk__add_with_this ch cons
      else ch)
    (rsc.rscCons.foldl
      (fun ch cons =>
        if all = true ∨ cons.score < 0 ∨ cons.score = INFINITY then pcmk__add_this_with ch cons
        else ch)
      child))

/-- can_run_instance: a node may run an instance iff the instance is not
orphaned, the node can run resources, the collective has a view of the node,
that view's score is nonnegative, and its count is below max_per_node. -/
def can_run_instance (inst : Instance) (node : NodeView) (top : List NodeView)
    (maxPerNode : Nat) : Bool :=
  if inst.orphan then false
  else if !node.node.availLoose then false
  else
    match topLookup top node.node.nid with
    | none => false
    | some allowedNode =>
      if allowedNode.weight < 0 then false
      else if allowedNode.count ≥ maxPerNode then false
      else true

/-- ban_unavailable_allowed_nodes: ban the instance from every allowed node
that cannot run it.  common_update_score with -INFINITY is outside these
sources; saturating score addition makes -INFINITY absorb any weight, so the
ban sets the node's weight to -INFINITY, as the spec states. -/
def ban_unavailable_allowed_nodes (inst : Instance) (top : List NodeView)
    (maxPerNode : Nat) : Instance :=
  { inst with allowedNodes := inst.allowedNodes.map (fun nv =>
      if can_run_instance inst nv top maxPerNode then nv
      else { nv with weight := -INFINITY }) }

/-- Modelled from the spec: the node comparator used by the native assign, a
challenger beats the incumbent when its weight is higher, or at equal weight
when it is the preferred node, or when neither is preferred and it has the
lower node id (weight descending with a stable deterministic tie-break). -/
def node_beats (prefer : Option Nat) (challenger best : NodeView) : Bool :=
  if best.weight < challenger.weight then true
  else if challenger.weight < best.weight then false
  else if prefer = some challenger.node.nid ∧ prefer ≠ some best.node.nid then true
  else if prefer = some best.node.nid then false
  else challenger.node.nid < best.node.nid

/-- One step of the native assign's choice: keep the better of the incumbent
and the challenger. -/
def choose_better (prefer : Option Nat) (best : Option NodeView) (challenger : NodeView) :
    Option NodeView :=
  match best with
  | none => some challenger
  | some b => if node_beats prefer challenger b then some challenger else some b

/-- Modelled from the spec: the per-variant native assign's node choice.  A
node with score -INFINITY is forbidden; among the rest the highest-weight node
wins, with ties preferring the requested node and then the lower node id.
Returns none when every node is forbidden. -/
def native_assign_choose (allowed : List NodeView) (prefer : Option Nat) : Option NodeView :=
  (allowed.filter (fun nv => decide (-INFINITY < nv.weight))).foldl (choose_better prefer) none

/-- Modelled from the spec: the resource's native assign(prefer?).  On success
the chosen node is recorded as the instance's location and provisional is
cleared; on failure the instance is left provisional and unassigned. -/
def native_assign (inst : Instance) (prefer : Option ClusterNode) :
    Instance × Option ClusterNode :=
  match native_assign_choose inst.allowedNodes (prefer.map ClusterNode.nid) with
  | some nv => ({ inst with provisional := false, assignedNode := some nv.node }, some nv.node)
  | none => (inst, none)

/-- Modelled from the spec: pcmk__unassign_resource makes the resource
provisional again with no chosen location. -/
def pcmk__unassign_resource (inst : Instance) : Instance :=
  { inst with provisional := true, assignedNode := none }

/-- Increment the count of the first table entry with the given node id (the
hash-table entry pcmk__top_allowed_node returned, mutated in place by the
source). -/
def increment_first_count : List NodeView → Nat → List NodeView
  | [], _ => []
  | nv :: rest, nid =>
    if nv.node.nid == nid then { nv with count := nv.count + 1 } :: rest
    else nv :: increment_first_count rest nid

/-- The post-assignment bookkeeping of assign_instance: if the collective has
a view of the chosen node, increment its count; otherwise (possible only for
unmanaged resources, logged as an assertion by the source) leave the table
unchanged. -/
def record_assignment (top : List NodeView) (chosen : ClusterNode) : List NodeView :=
  match topLookup top chosen.nid with
  | none => top
  | some _ => increment_first_count top chosen.nid

/-- Shared tail of assign_instance once a node has been chosen: count the
assignment against the collective's view and report success. -/
def assign_instance_finish (inst2 : Instance) (chosen : ClusterNode) (top : List NodeView) :
    Instance × List NodeView × Bool :=
  (inst2, record_assignment top chosen, true)

/-- The final-assignment arm of assign_instance (prefer == NULL): native
assign with no preference. -/
def assign_instance_final_arm (banned : Instance) (top : List NodeView) :
    Instance × List NodeView × Bool :=
  match native_assign banned none with
  | (inst2, some chosen) => assign_instance_finish inst2 chosen top
  | (inst2, none) => (inst2, top, false)

/-- The early-assignment arm of assign_instance (prefer != NULL): native
assign preferring prefer; if a different node was chosen, restore the backup
of the allowed-node table that was taken after the ban, unassign the
resource, and fail. -/
def assign_instance_prefer_arm (banned : Instance) (p : ClusterNode) (top : List NodeView) :
    Instance × List NodeView × Bool :=
  match native_assign banned (some p) with
  | (inst2, some chosen) =>
    if chosen.nid ≠ p.nid then
      (pcmk__unassign_resource { inst2 with allowedNodes := banned.allowedNodes }, top, false)
    else assign_instance_finish inst2 chosen top
  | (inst2, none) => (inst2, top, false)

/-- assign_instance: choose a node for an instance.  An already-assigned
instance succeeds iff it has a location; an instance being allocated is a
colocation loop and fails; with a preferred node that is absent from the
instance's table or negatively scored there, fail before banning; otherwise
ban the unavailable allowed nodes and dispatch on prefer.  The all_coloc
argument is carried as in the source, where it only affects logging. -/
def assign_instance (inst : Instance) (prefer : Option ClusterNode) (allColoc : Bool)
    (maxPerNode : Nat) (top : List NodeView) : Instance × List NodeView × Bool :=
  if !inst.provisional then (inst, top, inst.assignedNode.isSome)
  else if inst.allocating then (inst, top, false)
  else
    match prefer with
    | some p =>
      match inst.allowedNodes.find? (fun nv => nv.node.nid == p.nid) with
      | none => (inst, top, false)
      | some allowed =>
        if allowed.weight < 0 then (inst, top, false)
        else assign_instance_prefer_arm (ban_unavailable_allowed_nodes inst top maxPerNode) p top
    | none => assign_instance_final_arm (ban_unavailable_allowed_nodes inst top maxPerNode) top

/-- reset_allowed_node_counts: zero every count in the collective's table and
count the nodes available to run resources. -/
def reset_allowed_node_counts (table : List NodeView) : List NodeView × Nat :=
  (table.map (fun nv => { nv with count := 0 }),
   (table.filter (fun nv => nv.node.availLoose)).length)

/-- preferred_node: the instance's current node, provided the instance is
active, still provisional and not failed, the node passes the strict
availability check, and the collective's view of the node (when it has one)
has not yet reached the optimal count.  The source's first parameter (the
collective) is used only for logging and is omitted.  The source's single
combined guard on running_on, provisional and failed is split into successive
guards. -/
def preferred_node (inst : Instance) (top : List NodeView) (optimalPerNode : Nat) :
    Option ClusterNode :=
  match inst.runningOn with
  | none => none
  | some node =>
    if !inst.provisional then none
    else if inst.failed then none
    else if !node.availStrict then none
    else
      match topLookup top node.nid with
      | some parentNode =>
        if parentNode.count ≥ optimalPerNode then none else some node
      | none => some node

/-- Modelled from the spec: resource_location with a null node and score
-INFINITY pins the resource, recording an explicit -INFINITY location record
with the given reason and merging the ban into every allowed node. -/
def resource_location_ban (inst : Instance) (reason : String) : Instance × LocationRecord :=
  ({ inst with allowedNodes := inst.allowedNodes.map (fun nv => { nv with weight := -INFINITY }) },
   { rid := inst.rid, score := -INFINITY, reason := reason })

/-- One iteration of the early-assignment loop body (after the parent
colocations have been appended): assign to the preferred node when there is
one, bumping the assigned counter on success. -/
def early_step (maxPerNode optimalPerNode : Nat) (allColoc : Bool) (inst1 : Instance)
    (top : List NodeView) (assigned : Nat) : Instance × List NodeView × Nat :=
  match preferred_node inst1 top optimalPerNode with
  | some current =>
    match assign_instance inst1 (some current) allColoc maxPerNode top with
    | (inst2, top2, ok) => (inst2, top2, if ok then assigned + 1 else assigned)
  | none => (inst1, top, assigned)

/-- The first loop of pcmk__assign_instances: assign as many instances as
possible to their current location, stopping as soon as assigned reaches
max_total (the loop guard is re-checked before every iteration, so the
remaining instances are left untouched). -/
def assign_instances_early (coll : Collective) (maxTotal maxPerNode optimalPerNode : Nat)
    (allColoc : Bool) :
    List Instance → List NodeView → Nat → List Instance × List NodeView × Nat
  | [], top, assigned => ([], top, assigned)
  | inst :: rest, top, assigned =>
    if assigned < maxTotal then
      match early_step maxPerNode optimalPerNode allColoc
          (append_parent_colocation coll inst allColoc) top assigned with
      | (inst2, top2, assigned2) =>
        match assign_instances_early coll maxTotal maxPerNode optimalPerNode allColoc
            rest top2 assigned2 with
        | (rest2, top3, assigned3) => (inst2 :: rest2, top3, assigned3)
    else (inst :: rest, top, assigned)

/-- The second loop of pcmk__assign_instances: every still-provisional
instance is pinned to -INFINITY with reason "collective_limit_reached" once
assigned has reached max_total, and otherwise gets a final assignment,
bumping the counter on success.  The source's notice about an instance
running on a node that is no longer allowed is logging only and is omitted. -/
def assign_instances_final (maxTotal maxPerNode : Nat) (allColoc : Bool) :
    List Instance → List NodeView → Nat → List LocationRecord →
    List Instance × List NodeView × Nat × List LocationRecord
  | [], top, assigned, recs => ([], top, assigned, recs)
  | inst :: rest, top, assigned, recs =>
    if !inst.provisional then
      match assign_instances_final maxTotal maxPerNode allColoc rest top assigned recs with
      | (rest2, t, a, r) => (inst :: rest2, t, a, r)
    else if assigned ≥ maxTotal then
      match resource_location_ban inst "collective_limit_reached" with
      | (inst2, rec) =>
        match assign_instances_final maxTotal maxPerNode allColoc rest top assigned
            (recs ++ [rec]) with
        | (rest2, t, a, r) => (inst2 :: rest2, t, a, r)
    else
      match assign_instance inst none allColoc maxPerNode top with
      | (inst2, top2, ok) =>
        match assign_instances_final maxTotal maxPerNode allColoc rest top2
            (if ok then assigned + 1 else assigned) recs with
        | (rest2, t, a, r) => (inst2 :: rest2, t, a, r)

/-- The outcome of pcmk__assign_instances: the collective's node table (whose
counts now record the per-node assignments), the instances, the number of
assignments counted, and the location records pinned during the final pass. -/
structure AssignInstancesResult where
  top : List NodeView
  instances : List Instance
  assigned : Nat
  records : List LocationRecord
deriving DecidableEq, Repr

/-- The optimal number of instances per node: max_total divided by the number
of available nodes, and at least 1. -/
def optimal_per_node (maxTotal availableNodes : Nat) : Nat :=
  max (if 0 < availableNodes then maxTotal / availableNodes else 0) 1

/-- pcmk__assign_instances: reset the collective's node counts, honor all
parent colocations only when not every node will get an instance
(all_coloc = max_total < available nodes), run the early pass assigning
instances to their current nodes, then the final pass. -/
def pcmk__assign_instances (collective : Collective) (instances : List Instance)
    (maxTotal maxPerNode : Nat) : AssignInstancesResult :=
  match reset_allowed_node_counts collective.allowedNodes with
  | (top0, availableNodes) =>
    match assign_instances_early collective maxTotal maxPerNode
        (optimal_per_node maxTotal availableNodes) (decide (maxTotal < availableNodes))
        instances top0 0 with
    | (insts1, top1, assigned1) =>
      match assign_instances_final maxTotal maxPerNode (decide (maxTotal < availableNodes))
          insts1 top1 assigned1 [] with
      | (insts2, top2, assigned2, recs) =>
        { top := top2, instances := insts2, assigned := assigned2, records := recs }

/-- An action (pe_action_t): identity, task text, uuid, the node it is limited
to (none models a node-independent action), and the flags the summarizer and
ordering code consult. -/
structure PAction where
  aid : Nat
  task : String
  uuid : String
  node : Option Nat
  optional : Bool
  runnable : Bool
  pseudo : Bool
deriving DecidableEq, Repr

/-- The task text RSC_START. -/
def RSC_START : String := "start"

/-- The task text RSC_STOP. -/
def RSC_STOP : String := "stop"

/-- A resource subtree as seen by check_instance_state: a primitive carries
whether it is currently active (running_on != NULL) and its actions; any
other variant (variant > pe_native) carries children to recurse into. -/
inductive SRsc where
  | primitive (runningOn : Bool) (actions : List PAction)
  | collective (children : List SRsc)

/-- The instance_state bits folded by check_instance_state. -/
structure IState where
  starting : Bool
  stopping : Bool
  restarting : Bool
  active : Bool
deriving DecidableEq, Repr

/-- pcmk_all_flags_set(state, instance_all): all four state bits are set. -/
def instance_all_set (s : IState) : Bool :=
  s.starting && s.stopping && s.restarting && s.active

/-- Bitwise or of two state words. -/
def or_state (a b : IState) : IState :=
  { starting := a.starting || b.starting
  , stopping := a.stopping || b.stopping
  , restarting := a.restarting || b.restarting
  , active := a.active || b.active }

/-- The action scan of check_instance_state for one primitive: accumulate the
starting and stopping bits over the actions, stopping as soon as both are
set; a start action contributes when non-optional and runnable, a stop
action when non-optional and pseudo or runnable. -/
def scan_instance_actions : List PAction → Bool → Bool → Bool × Bool
  | [], starting, stopping => (starting, stopping)
  | a :: rest, starting, stopping =>
    if starting && stopping then (starting, stopping)
    else if a.task == RSC_START then
      scan_instance_actions rest (starting || (!a.optional && a.runnable)) stopping
    else if a.task == RSC_STOP then
      scan_instance_actions rest starting (stopping || (!a.optional && (a.pseudo || a.runnable)))
    else scan_instance_actions rest starting stopping

/-- The state contributed by one primitive: active when running, starting and
stopping from the action scan, and restarting exactly when this primitive is
both starting and stopping. -/
def primitive_instance_state (runningOn : Bool) (actions : List PAction) : IState :=
  match scan_instance_actions actions false false with
  | (starting, stopping) =>
    { starting := starting
    , stopping := stopping
    , restarting := starting && stopping
    , active := runningOn }

mutual

/-- check_instance_state: fold the starting/stopping/restarting/active bits of
a resource subtree into the state, returning immediately once every bit is
set; a collective recurses into its children, a primitive contributes its own
bits (or-ed into the state at the end, as the source's final *state |=). -/
def check_instance_state : SRsc → IState → IState
  | r, state =>
    if instance_all_set state then state
    else
      match r with
      | .primitive runningOn actions =>
        or_state state (primitive_instance_state runningOn actions)
      | .collective children => check_children_state children state

/-- The children loop of check_instance_state, re-checking the all-bits-set
guard before each child. -/
def check_children_state : List SRsc → IState → IState
  | [], state => state
  | c :: rest, state =>
    if instance_all_set state then state
    else check_children_state rest (check_instance_state c state)

end

mutual

/-- The primitives of a resource subtree, in traversal order, each as its
running flag paired with its actions. -/
def srsc_primitives : SRsc → List (Bool × List PAction)
  | .primitive runningOn actions => [(runningOn, actions)]
  | .collective children => children_primitives children

/-- The primitives of a list of subtrees, in order. -/
def children_primitives : List SRsc → List (Bool × List PAction)
  | [] => []
  | c :: rest => srsc_primitives c ++ children_primitives rest

end

/-- A start action that makes its primitive starting: non-optional and
runnable. -/
def is_starting_action (a : PAction) : Bool :=
  a.task == RSC_START && !a.optional && a.runnable

/-- A stop action that makes its primitive stopping: non-optional and pseudo
or runnable. -/
def is_stopping_action (a : PAction) : Bool :=
  a.task == RSC_STOP && !a.optional && (a.pseudo || a.runnable)

/-- A primitive that is restarting: it contributes both the starting and the
stopping bit. -/
def primitive_restarts (p : Bool × List PAction) : Bool :=
  p.2.any is_starting_action && p.2.any is_stopping_action

/-- Split a character list at underscores. -/
def split_on_underscore : List Char → List (List Char)
  | [] => [[]]
  | ch :: rest =>
    match split_on_underscore rest with
    | [] => [[]]
    | seg :: segs => if ch == '_' then [] :: seg :: segs else (ch :: seg) :: segs

/-- The task a notify action is notifying about: the text between the last
two underscores of the uuid (the source scans the uuid backwards for the two
rightmost underscores). -/
def notified_task_from_uuid (uuid : String) : String :=
  match (split_on_underscore uuid.data).dropLast.getLast? with
  | some seg => String.mk seg
  | none => uuid

/-- clone_child_action: the task to look for in the children; for notify
actions, the task being notified about as extracted from the uuid.
get_complex_task (the per-variant task normalization) and task2text are
outside these sources and are modelled from the spec as the identity on the
task text. -/
def clone_child_action (a : PAction) : String :=
  if a.task == "notify" || a.task == "notified" then notified_task_from_uuid a.uuid
  else a.task

/-- A child resource as seen by summary_action_flags: its actions and whether
it has children of its own (which makes the per-child action lookup ignore
the node). -/
structure CRsc where
  crid : Nat
  actions : List PAction
  hasChildren : Bool
deriving DecidableEq, Repr

/-- Modelled from the spec: find_first_action is outside these sources; it
returns the first action with the given task, restricted to the given node
when one is given. -/
def find_first_action (actions : List PAction) (task : String) (node : Option Nat) :
    Option PAction :=
  actions.find? (fun a => a.task == task && (node.isNone || a.node == node))

/-- The flag summary built by summary_action_flags. -/
structure SummaryFlags where
  optional : Bool
  runnable : Bool
  pseudo : Bool
deriving DecidableEq, Repr

/-- The child fold of summary_action_flags: for each child with an action of
the task (node-restricted unless the child has children), clear optional on
both the summary and the underlying action when the summary is still optional
and the child's action is not (child->cmds->action_flags is outside these
sources and is modelled from the spec as the child action's own flags), and
track whether any child action is runnable. -/
def summary_fold (task : String) (node : Option Nat) :
    List CRsc → SummaryFlags → PAction → Bool → SummaryFlags × PAction × Bool
  | [], flags, action, anyRunnable => (flags, action, anyRunnable)
  | child :: rest, flags, action, anyRunnable =>
    match find_first_action child.actions task (if child.hasChildren then none else node) with
    | none => summary_fold task node rest flags action anyRunnable
    | some childAction =>
      if flags.optional && !childAction.optional then
        summary_fold task node rest { flags with optional := false }
          { action with optional := false } (anyRunnable || childAction.runnable)
      else
        summary_fold task node rest flags action (anyRunnable || childAction.runnable)

/-- summary_action_flags: fold the children's actions of the collective
action's task into the initial summary {optional, runnable, pseudo}; when no
child action is runnable, clear runnable on the summary, and on the action
itself when no node was given.  Returns the summary together with the
(possibly updated) underlying action. -/
def summary_action_flags (action : PAction) (children : List CRsc) (node : Option Nat) :
    SummaryFlags × PAction :=
  match summary_fold (clone_child_action action) node children
      { optional := true, runnable := true, pseudo := true } action false with
  | (flags, action2, anyRunnable) =>
    if !anyRunnable then
      ({ flags with runnable := false },
       if node.isNone then { action2 with runnable := false } else action2)
    else (flags, action2)

/-- Whether a child has an action of the task (looked up as the summary fold
does) whose flags lack optional. -/
def child_makes_mandatory (task : String) (node : Option Nat) (child : CRsc) : Bool :=
  match find_first_action child.actions task (if child.hasChildren then none else node) with
  | some a => !a.optional
  | none => false

/-- pcmk__ends_with: whether the string ends with the given suffix. -/
def pcmk__ends_with (s suffixStr : String) : Bool :=
  suffixStr.data.isSuffixOf s.data

/-- The resource roles (enum rsc_role_e). -/
inductive RscRole where
  | unknown
  | stopped
  | started
  | unpromoted
  | promoted
deriving DecidableEq, Repr

/-- A resource contained in a bundle replica container, as returned by
pcmk__get_rsc_in_container: its identity and actions are all the interleave
code reads of it. -/
structure ContainedRsc where
  crid : Nat
  actions : List PAction
deriving DecidableEq, Repr

/-- A child of a collective as seen by the interleave code: blocked state
(is_set_recursive on pe_rsc_block), orphan flag, role and location for the
current and the next (assigned) sense, the allowed nodes for the fallback
search, the child's actions, the contained resource when the child is a
bundle replica container, and whether the child has been pinned to -INFINITY
(inhibited from being active). -/
structure ORsc where
  orid : Nat
  blockedRec : Bool
  orphan : Bool
  roleCur : RscRole
  roleNext : RscRole
  locCur : Option Nat
  locNext : Option Nat
  allowedNodes : List (Nat × Int)
  actions : List PAction
  contained : Option ContainedRsc
  pinnedMinusInf : Bool
deriving DecidableEq, Repr

/-- fns->location(rsc, NULL, current): the current node when current is set,
else the assigned node. -/
def orsc_location (r : ORsc) (current : Bool) : Option Nat :=
  if current then r.locCur else r.locNext

/-- fns->state(rsc, current): the role in the requested sense. -/
def orsc_role (r : ORsc) (current : Bool) : RscRole :=
  if current then r.roleCur else r.roleNext

/-- is_child_compatible: a candidate peer child is compatible with a local
node when it passes the role filter and, unless it is blocked, its location
in the requested sense is that node. -/
def is_child_compatible (childRsc : ORsc) (localNode : Nat) (filter : RscRole)
    (current : Bool) : Bool :=
  if filter ≠ RscRole.unknown ∧ orsc_role childRsc current ≠ filter then false
  else
    match (if childRsc.blockedRec then none else orsc_location childRsc current) with
    | some n => n == localNode
    | none => false

/-- find_compatible_child_by_node: the first compatible child among the
peer's children (get_containers_or_children) for the local node.  The
source's local_child parameter is used only for logging and is omitted. -/
def find_compatible_child_by_node (localNode : Nat) (children : List ORsc)
    (filter : RscRole) (current : Bool) : Option ORsc :=
  children.find? (fun childRsc => is_child_compatible childRsc localNode filter current)

/-- Modelled from the spec: pcmk__sort_nodes orders candidates by weight
descending with a stable deterministic tie-break (node id ascending); a is
placed before b when a's weight is higher, or equal with a's id not larger. -/
def node_sort_le (a b : Nat × Int) : Bool :=
  decide (b.2 < a.2) || (a.2 == b.2 && decide (a.1 ≤ b.1))

/-- Insert into a list sorted by node_sort_le. -/
def sorted_insert (x : Nat × Int) : List (Nat × Int) → List (Nat × Int)
  | [] => [x]
  | y :: rest => if node_sort_le x y then x :: y :: rest else y :: sorted_insert x rest

/-- Insertion sort by node_sort_le (the standard node comparator). -/
def pcmk__sort_nodes : List (Nat × Int) → List (Nat × Int)
  | [] => []
  | x :: rest => sorted_insert x (pcmk__sort_nodes rest)

/-- find_compatible_child: search the peer's children for one located with
the local child; when the local child has no location in the requested sense,
try each of its allowed nodes in comparator order. -/
def find_compatible_child (localChild : ORsc) (peerChildren : List ORsc)
    (filter : RscRole) (current : Bool) : Option ORsc :=
  match orsc_location localChild current with
  | some localNode => find_compatible_child_by_node localNode peerChildren filter current
  | none =>
    (pcmk__sort_nodes localChild.allowedNodes).findSome?
      (fun nw => find_compatible_child_by_node nw.1 peerChildren filter current)

/-- The ordering flag pe_order_implies_then. -/
def pe_order_implies_then : Nat := 32

/-- The ordering flag pe_order_runnable_left. -/
def pe_order_runnable_left : Nat := 256

/-- The updated mask pcmk__updated_none. -/
def pcmk__updated_none : Nat := 0

/-- The updated mask pcmk__updated_first. -/
def pcmk__updated_first : Nat := 1

/-- The updated mask pcmk__updated_then. -/
def pcmk__updated_then : Nat := 2

/-- pcmk_any_flags_set: at least one bit of the mask is set. -/
def pcmk_any_flags_set (flags mask : Nat) : Bool :=
  (flags &&& mask) != 0

/-- Modelled from the spec: pcmk__assign_resource with a null node and force
pins the resource to score -INFINITY everywhere, inhibiting it from being
active, and reports that the resource changed. -/
def pcmk__assign_resource_force (r : ORsc) : ORsc × Bool :=
  ({ r with pinnedMinusInf := true
          , allowedNodes := r.allowedNodes.map (fun nw => (nw.1, -INFINITY)) }, true)

/-- An edge of the ordering graph. -/
structure OrderEdge where
  firstAid : Nat
  thenAid : Nat
  orderType : Nat
deriving DecidableEq, Repr

/-- Modelled from the spec: order_actions adds an ordering edge to the graph
with duplicate suppression and reports whether a new relation was created. -/
def order_actions (firstAction thenAction : PAction) (orderType : Nat)
    (edges : List OrderEdge) : List OrderEdge × Bool :=
  if edges.any (fun e => e.firstAid == firstAction.aid && e.thenAid == thenAction.aid) then
    (edges, false)
  else (edges ++ [⟨firstAction.aid, thenAction.aid, orderType⟩], true)

/-- An action of a collective as used by the ordering updater: the action
itself together with the collective's children (containers when the resource
is a bundle, its children otherwise: get_containers_or_children). -/
structure OAction where
  act : PAction
  rscChildren : List ORsc
deriving DecidableEq, Repr

/-- Locate the first action for an interleaved pair: when the first child
hosts a contained resource and the first action's task is stop or stopped,
the contained resource's action is used; otherwise the child's own. -/
def interleave_first_action (first : OAction) (firstChild : ORsc) (node : Option Nat) :
    Option PAction :=
  match firstChild.contained with
  | some containedRsc =>
    if first.act.task == "stop" || first.act.task == "stopped" then
      find_first_action containedRsc.actions (clone_child_action first.act) node
    else find_first_action firstChild.actions (clone_child_action first.act) node
  | none => find_first_action firstChild.actions (clone_child_action first.act) node

/-- Locate the then action for an interleaved pair: role actions (promote,
promoted, demote, demoted) apply to the contained resource when there is one;
otherwise the child's own action for the task. -/
def interleave_then_action (thenA : OAction) (thenChild : ORsc) (node : Option Nat) :
    Option PAction :=
  match thenChild.contained with
  | some containedRsc =>
    if thenA.act.task == "promote" || thenA.act.task == "promoted"
        || thenA.act.task == "demote" || thenA.act.task == "demoted" then
      find_first_action containedRsc.actions thenA.act.task node
    else find_first_action thenChild.actions thenA.act.task node
  | none => find_first_action thenChild.actions thenA.act.task node

/-- Modelled from the spec: the per-variant update_ordered_actions call that
the matched branch recurses into propagates ordering effects into action
flags and reports an updated mask; it never changes child placement or the
edge list handled here, so it is modelled as contributing no further
updates. -/
def update_ordered_actions_model (firstAction thenAction : PAction) : Nat :=
  pcmk__updated_none

/-- The matched branch of the interleave loop: locate the two actions (a
missing one is logged and skipped), add the ordering edge, and recurse into
the then child's update_ordered_actions. -/
def interleave_matched_step (first thenA : OAction) (node : Option Nat) (orderType : Nat)
    (firstChild thenChild : ORsc) (edges : List OrderEdge) (changed : Nat) :
    List OrderEdge × Nat :=
  match interleave_first_action first firstChild node,
        interleave_then_action thenA thenChild node with
  | some firstAction, some thenAction =>
    match order_actions firstAction thenAction orderType edges with
    | (edges2, added) =>
      (edges2,
       (if added then changed ||| (pcmk__updated_first ||| pcmk__updated_then) else changed)
         ||| update_ordered_actions_model firstAction thenAction)
  | _, _ => (edges, changed)

/-- One then child of the interleave loop: find a compatible first child; with
none, ignore the child when pairing by current location, and otherwise, when
the ordering type has pe_order_runnable_left or pe_order_implies_then, inhibit
the child from being active (force-assign it to no node, pinning it to
-INFINITY) and mark then updated; with a match, run the matched branch. -/
def interleave_child_step (first thenA : OAction) (node : Option Nat) (orderType : Nat)
    (current : Bool) (thenChild : ORsc) (edges : List OrderEdge) (changed : Nat) :
    ORsc × List OrderEdge × Nat :=
  match find_compatible_child thenChild first.rscChildren RscRole.unknown current with
  | none =>
    if current then (thenChild, edges, changed)
    else if pcmk_any_flags_set orderType (pe_order_runnable_left ||| pe_order_implies_then) then
      match pcmk__assign_resource_force thenChild with
      | (pinned, changedHere) =>
        (pinned, edges, if changedHere then changed ||| pcmk__updated_then else changed)
    else (thenChild, edges, changed)
  | some firstChild =>
    match interleave_matched_step first thenA node orderType firstChild thenChild
        edges changed with
    | (edges2, changed2) => (thenChild, edges2, changed2)

/-- The loop of multi_update_interleave_actions over the then children. -/
def interleave_children (first thenA : OAction) (node : Option Nat) (orderType : Nat)
    (current : Bool) :
    List ORsc → List OrderEdge → Nat → List ORsc × List OrderEdge × Nat
  | [], edges, changed => ([], edges, changed)
  | thenChild :: rest, edges, changed =>
    match interleave_child_step first thenA node orderType current thenChild edges changed with
    | (child2, edges2, changed2) =>
      match interleave_children first thenA node orderType current rest edges2 changed2 with
      | (rest2, edges3, changed3) => (child2 :: rest2, edges3, changed3)

/-- multi_update_interleave_actions: pair the then children with compatible
first children, pairing by current location when the first action's uuid ends
in _stopped_0 or _demoted_0.  Returns the (possibly pinned) then children in
order, the ordering edges created, and the updated mask.  The filter argument
is carried as in the source, where it is only passed through to the
update_ordered_actions recursion. -/
def multi_update_interleave_actions (first thenA : OAction) (node : Option Nat)
    (filter orderType : Nat) : List ORsc × List OrderEdge × Nat :=
  interleave_children first thenA node orderType
    (pcmk__ends_with first.act.uuid "_stopped_0" || pcmk__ends_with first.act.uuid "_demoted_0")
    thenA.rscChildren [] pcmk__updated_none

/-- The option flag pcmk__opt_advanced (the bit position is not fixed by
these sources; only distinctness matters). -/
def pcmk__opt_advanced : Nat := 16

/-- The option flag pcmk__opt_deprecated. -/
def pcmk__opt_deprecated : Nat := 32

/-- The option flag pcmk__opt_generated. -/
def pcmk__opt_generated : Nat := 64

/-- pcmk_all_flags_set: every bit of the mask is set. -/
def pcmk_all_flags_set (flags mask : Nat) : Bool :=
  (flags &&& mask) == mask

/-- pcmk_is_set: the (single-bit) flag is set. -/
def pcmk_is_set (flags flag : Nat) : Bool :=
  pcmk_all_flags_set flags flag

/-- A cluster option (pcmk__cluster_option_t) as the list formatter
classifies it: its name and flags.  The descriptions, type, values and
default feed only the body of its entry, which the claims treat as one
output token. -/
structure ClusterOption where
  name : String
  flags : Nat
deriving DecidableEq, Repr

/-- One token of the text output: the entry of an option is collapsed to a
single token since the claims quantify only over which options are emitted
where. -/
inductive OutItem where
  | info (text : String)
  | spacer
  | beginList (header : Option String)
  | endList
  | optionEntry (name : String)
deriving DecidableEq, Repr

/-- One option of the main pass of option_list_default: an option passing the
filter is buffered (prepended) into the deprecated or advanced group when so
flagged and shown, dropped when so flagged and not shown, and otherwise
emitted in place; the deprecated check precedes the advanced one. -/
def option_list_step (filter : Nat) (showDeprecated showAdvanced : Bool)
    (acc : List OutItem × List ClusterOption × List ClusterOption)
    (option : ClusterOption) :
    List OutItem × List ClusterOption × List ClusterOption :=
  if pcmk_all_flags_set option.flags filter then
    if pcmk_is_set option.flags pcmk__opt_deprecated then
      if showDeprecated then (acc.1, option :: acc.2.1, acc.2.2) else acc
    else if pcmk_is_set option.flags pcmk__opt_advanced then
      if showAdvanced then (acc.1, acc.2.1, option :: acc.2.2) else acc
    else (acc.1 ++ [OutItem.spacer, OutItem.optionEntry option.name], acc.2.1, acc.2.2)
  else acc

/-- The main pass of option_list_default: the in-place output together with
the deprecated and advanced buffers (in prepend order). -/
def option_list_main (filter : Nat) (showDeprecated showAdvanced : Bool)
    (options : List ClusterOption) :
    List OutItem × List ClusterOption × List ClusterOption :=
  options.foldl (option_list_step filter showDeprecated showAdvanced) ([], [], [])

/-- Whether the deprecated group is shown: all requested or the filter
includes the deprecated flag. -/
def show_deprecated_group (filter : Nat) (all : Bool) : Bool :=
  all || pcmk_is_set filter pcmk__opt_deprecated

/-- Whether the advanced group is shown. -/
def show_advanced_group (filter : Nat) (all : Bool) : Bool :=
  all || pcmk_is_set filter pcmk__opt_advanced

/-- The options emitted under ADVANCED OPTIONS, in input order (the buffer is
built by prepending and reversed before emission). -/
def advanced_group_options (filter : Nat) (options : List ClusterOption) (all : Bool) :
    List ClusterOption :=
  (option_list_main filter (show_deprecated_group filter all)
      (show_advanced_group filter all) options).2.2.reverse

/-- The options emitted under DEPRECATED OPTIONS, in input order. -/
def deprecated_group_options (filter : Nat) (options : List ClusterOption) (all : Bool) :
    List ClusterOption :=
  (option_list_main filter (show_deprecated_group filter all)
      (show_advanced_group filter all) options).2.1.reverse

/-- The entries of a run of options: a spacer then the entry, per option. -/
def entries_of (options : List ClusterOption) : List OutItem :=
  options.foldr (fun o acc => OutItem.spacer :: OutItem.optionEntry o.name :: acc) []

/-- A trailing group of option_list_default: nothing when the group is empty,
else a spacer, a nested list under the header holding the group's entries. -/
def group_block (header : String) (groupOptions : List ClusterOption) : List OutItem :=
  if groupOptions.isEmpty then []
  else [OutItem.spacer, OutItem.beginList (some header)]
       ++ entries_of groupOptions ++ [OutItem.endList]

/-- option_list_default: the text option-list output as its token stream: the
two descriptions and the outer list, the main pass, then the ADVANCED
OPTIONS group, then the DEPRECATED OPTIONS group, then the outer end.  The
fancy-text toggle around the emission only styles the sink and is omitted. -/
def option_list_default (descShort descLong : String) (filter : Nat)
    (options : List ClusterOption) (all : Bool) : List OutItem :=
  [OutItem.info descShort, OutItem.spacer, OutItem.info descLong, OutItem.beginList none]
  ++ (option_list_main filter (show_deprecated_group filter all)
        (show_advanced_group filter all) options).1
  ++ group_block "ADVANCED OPTIONS" (advanced_group_options filter options all)
  ++ group_block "DEPRECATED OPTIONS (will be removed in a future release)"
       (deprecated_group_options filter options all)
  ++ [OutItem.endList]

/-- An option of the main run, per the claim: passes the filter and is
neither deprecated nor advanced. -/
def option_shown_main (filter : Nat) (o : ClusterOption) : Bool :=
  pcmk_all_flags_set o.flags filter
    && !pcmk_is_set o.flags pcmk__opt_deprecated
    && !pcmk_is_set o.flags pcmk__opt_advanced

/-- An option of the deprecated group, per the claim: passes the filter, is
flagged deprecated, and the group is shown. -/
def option_in_deprecated_group (filter : Nat) (all : Bool) (o : ClusterOption) : Bool :=
  pcmk_all_flags_set o.flags filter
    && pcmk_is_set o.flags pcmk__opt_deprecated
    && show_deprecated_group filter all

/-- An option of the advanced group, per the claim: passes the filter, is
flagged advanced but not deprecated, and the group is shown. -/
def option_in_advanced_group (filter : Nat) (all : Bool) (o : ClusterOption) : Bool :=
  pcmk_all_flags_set o.flags filter
    && !pcmk_is_set o.flags pcmk__opt_deprecated
    && pcmk_is_set o.flags pcmk__opt_advanced
    && show_advanced_group filter all

/-- The text option-list output as the claim describes it: the main run over
the untouched options in input order, then the two trailing groups, each a
filter of the input in input order and present only when shown. -/
def option_list_spec (descShort descLong : String) (filter : Nat)
    (options : List ClusterOption) (all : Bool) : List OutItem :=
  [OutItem.info descShort, OutItem.spacer, OutItem.info descLong, OutItem.beginList none]
  ++ entries_of (options.filter (option_shown_main filter))
  ++ group_block "ADVANCED OPTIONS" (options.filter (option_in_advanced_group filter all))
  ++ group_block "DEPRECATED OPTIONS (will be removed in a future release)"
       (options.filter (option_in_deprecated_group filter all))
  ++ [OutItem.endList]

/-- The filter append_parent_colocation applies to the parent's outgoing
("this with") colocations: all, or score negative, or score plus infinity. -/
def this_with_filter (all : Bool) (c : Colocation) : Bool :=
  all || decide (c.score < 0) || decide (c.score = INFINITY)

/-- The filter append_parent_colocation applies to the parent's incoming
("other with this") colocations: influence on the child, and all or score
negative (plus infinity does not qualify here). -/
def with_this_filter (all : Bool) (childId : Nat) (c : Colocation) : Bool :=
  pcmk__colocation_has_influence c childId && (all || decide (c.score < 0))

/-- A sample available node. -/
def nodeA : ClusterNode := { nid := 1, availLoose := true, availStrict := true }

/-- A sample node that cannot run resources. -/
def nodeB : ClusterNode := { nid := 2, availLoose := false, availStrict := false }

/-- A sample available node with a higher id. -/
def nodeC : ClusterNode := { nid := 3, availLoose := true, availStrict := true }

/-- A sample collective node table over the three nodes, all clean. -/
def sampleTop : List NodeView :=
  [{ node := nodeA, weight := 0, count := 0 },
   { node := nodeB, weight := 0, count := 0 },
   { node := nodeC, weight := 0, count := 0 }]

/-- A sample provisional instance preferring nodeC on score but asked to
prefer nodeA; nodeB is unavailable, so the ban rewrites its weight. -/
def rollbackInst : Instance :=
  { rid := 10, orphan := false, provisional := true, allocating := false
  , managed := true, failed := false
  , allowedNodes := [{ node := nodeA, weight := 1, count := 0 },
                     { node := nodeB, weight := 5, count := 0 },
                     { node := nodeC, weight := 10, count := 0 }]
  , runningOn := none, assignedNode := none, rscCons := [], rscConsLhs := [] }

/-- A sample collective over sampleTop with no colocations. -/
def sampleCollective : Collective :=
  { allowedNodes := sampleTop, rscCons := [], rscConsLhs := [] }

/-- A sample provisional instance allowed on nodeA only. -/
def limitInst : Instance :=
  { rid := 11, orphan := false, provisional := true, allocating := false
  , managed := true, failed := false
  , allowedNodes := [{ node := nodeA, weight := 0, count := 0 }]
  , runningOn := none, assignedNode := none, rscCons := [], rscConsLhs := [] }

/-- A sample instance active on nodeA and eligible for early assignment. -/
def stickyInst : Instance :=
  { rid := 12, orphan := false, provisional := true, allocating := false
  , managed := true, failed := false
  , allowedNodes := [{ node := nodeA, weight := 0, count := 0 }]
  , runningOn := some nodeA, assignedNode := none, rscCons := [], rscConsLhs := [] }

/-- A sample incoming colocation with score plus infinity and influence on
resource 11. -/
def infinityIncomingCons : Colocation := { cid := 5, score := INFINITY, influenced := [11] }

/-- A sample parent whose only incoming colocation is the plus-infinity one. -/
def infinityConsParent : Collective :=
  { allowedNodes := sampleTop, rscCons := [], rscConsLhs := [infinityIncomingCons] }

/-- A sample peer child for the interleave search, located on node 2 in both
senses. -/
def peerChildOn2 : ORsc :=
  { orid := 21, blockedRec := false, orphan := false
  , roleCur := RscRole.started, roleNext := RscRole.started
  , locCur := some 2, locNext := some 2, allowedNodes := [(2, 0)]
  , actions := [], contained := none, pinnedMinusInf := false }

/-- A sample then child located on node 1 in both senses, with no compatible
peer child on either sense. -/
def lonelyThenChild : ORsc :=
  { orid := 31, blockedRec := false, orphan := false
  , roleCur := RscRole.started, roleNext := RscRole.started
  , locCur := some 1, locNext := some 1, allowedNodes := [(1, 0)]
  , actions := [], contained := none, pinnedMinusInf := false }

/-- A sample first action whose uuid ends in _stopped_0, making the pairing a
current one. -/
def stoppedFirstAction : OAction :=
  { act := { aid := 100, task := "stopped", uuid := "C1_stopped_0", node := none
           , optional := false, runnable := true, pseudo := true }
  , rscChildren := [peerChildOn2] }

/-- A sample first action whose uuid ends in _start_0, not a current
pairing. -/
def startFirstAction : OAction :=
  { act := { aid := 101, task := "start", uuid := "C1_start_0", node := none
           , optional := false, runnable := true, pseudo := true }
  , rscChildren := [peerChildOn2] }

/-- A sample then action whose collective has the lonely child. -/
def lonelyThenAction : OAction :=
  { act := { aid := 200, task := "stopped", uuid := "C2_stopped_0", node := none
           , optional := false, runnable := true, pseudo := true }
  , rscChildren := [lonelyThenChild] }

/-- A sample then action for the non-current pairing. -/
def lonelyThenStartAction : OAction :=
  { act := { aid := 201, task := "start", uuid := "C2_start_0", node := none
           , optional := false, runnable := true, pseudo := true }
  , rscChildren := [lonelyThenChild] }

/-- A sample option flagged both deprecated and advanced. -/
def bothFlaggedOption : ClusterOption :=
  { name := "both", flags := pcmk__opt_deprecated + pcmk__opt_advanced }

/-- A sample plain option. -/
def plainOption : ClusterOption := { name := "plain", flags := 0 }

theorem this_with_foldl (consList : List Colocation) (child : Instance) (all : Bool) :
    consList.foldl
      (fun ch cons =>
        if all = true ∨ cons.score < 0 ∨ cons.score = INFINITY then pcmk__add_this_with ch cons
        else ch) child
    = { child with rscCons := child.rscCons ++ consList.filter (this_with_filter all) } := by
  induction consList generalizing child with
  | nil => simp
  | cons c rest ih =>
    simp only [List.foldl_cons, List.filter_cons]
    by_cases h : all = true ∨ c.score < 0 ∨ c.score = INFINITY
    · have hb : this_with_filter all c = true := by
        simp only [this_with_filter, Bool.or_eq_true, decide_eq_true_eq]
        tauto
      rw [if_pos h, ih, hb]
      simp [pcmk__add_this_with]
    · have hb : this_with_filter all c = false := by
        push_neg at h
        simp [this_with_filter, h.1, h.2.1, h.2.2]
      rw [if_neg h, ih, hb]
      simp

theorem with_this_foldl (consList : List Colocation) (child : Instance) (all : Bool) :
    consList.foldl
      (fun ch cons =>
        if !pcmk__colocation_has_influence cons ch.rid then ch
        else if all = true ∨ cons.score < 0 then pcmk__add_with_this ch cons
        else ch) child
    = { child with
          rscConsLhs := child.rscConsLhs ++ consList.filter (with_this_filter all child.rid) } := by
  induction consList generalizing child with
  | nil => simp
  | cons c rest ih =>
    simp only [List.foldl_cons, List.filter_cons]
    by_cases hi : pcmk__colocation_has_influence c child.rid
    · rw [if_neg (by simp [hi])]
      by_cases h : all = true ∨ c.score < 0
      · have hb : with_this_filter all child.rid c = true := by
          simp only [with_this_filter, hi, Bool.true_and, Bool.or_eq_true, decide_eq_true_eq]
          tauto
        rw [if_pos h, ih, hb]
        simp [pcmk__add_with_this]
      · have hb : with_this_filter all child.rid c = false := by
          push_neg at h
          simp [with_this_filter, h.1, h.2]
        rw [if_neg h, ih, hb]
        simp
    · have hb : with_this_filter all child.rid c = false := by
        simp [with_this_filter, Bool.eq_false_iff.mpr hi]
      rw [if_pos (by rw [Bool.eq_false_iff.mpr hi]; rfl), ih, hb]
      simp

/-- C4 (amended): append_parent_colocation copies a parent's outgoing
colocation onto the child iff all_coloc, or its score is negative, or its
score is plus infinity; it copies a parent's incoming colocation iff the edge
has influence on the child and all_coloc or its score is negative — a plus
infinity score does not qualify an incoming edge. -/
theorem append_parent_colocation_filters (parent : Collective) (child : Instance) (all : Bool) :
    append_parent_colocation parent child all
    = { child with
          rscCons := child.rscCons ++ parent.rscCons.filter (this_with_filter all)
        , rscConsLhs :=
            child.rscConsLhs ++ parent.rscConsLhs.filter (with_this_filter all child.rid) } := by
  unfold append_parent_colocation
  rw [this_with_foldl, with_this_foldl]

/-- C4 (counterexample): the incoming colocation with score plus infinity has
influence on the child, yet with all_coloc false it is not copied onto the
child, contradicting the claim that incoming edges pass the same score filter
as outgoing ones. -/
theorem append_parent_colocation_infinity_incoming_dropped :
    pcmk__colocation_has_influence infinityIncomingCons limitInst.rid = true
    ∧ infinityIncomingCons.score = INFINITY
    ∧ limitInst.rscConsLhs = []
    ∧ (append_parent_colocation infinityConsParent limitInst false).rscConsLhs = [] := by
  decide

/-- C5: preferred_node returns null when the instance is inactive, and
otherwise returns the instance's current node iff the instance is still
provisional and not failed, the node passes the strict availability check,
and the collective's view of the node — fixed by a hypothesis, as the spec's
invariants guarantee it to exist — has count below the optimal; any non-null
result is the current node. -/
theorem preferred_node_characterization (inst : Instance) (top : List NodeView)
    (optimalPerNode : Nat) :
    (inst.runningOn = none → preferred_node inst top optimalPerNode = none)
    ∧ ∀ node t, inst.runningOn = some node → topLookup top node.nid = some t →
        ((preferred_node inst top optimalPerNode = some node ↔
          (inst.provisional = true ∧ inst.failed = false ∧ node.availStrict = true
            ∧ t.count < optimalPerNode))
         ∧ ∀ r, preferred_node inst top optimalPerNode = some r → r = node) := by
  constructor
  · intro hrun
    simp [preferred_node, hrun]
  · intro node t hrun htop
    simp only [preferred_node, hrun, htop]
    by_cases hp : inst.provisional
    · by_cases hf : inst.failed
      · simp [hp, hf]
      · by_cases ha : node.availStrict
        · by_cases hc : t.count ≥ optimalPerNode
          · simp [hp, hf, ha, hc, Nat.not_lt.mpr hc]
          · constructor
            · simp [hp, hf, ha, hc, Nat.lt_of_not_le hc]
            · intro r hr
              simp only [hp, hf, ha, Bool.not_true, Bool.false_eq_true, if_false, if_neg hc,
                Option.some.injEq] at hr
              exact hr.symm
        · simp [hp, hf, Bool.eq_false_iff.mpr ha]
    · simp [Bool.eq_false_iff.mpr hp]

/-- C5 (witness): the sample instance active on nodeA is eligible for early
assignment, and preferred_node indeed returns nodeA. -/
theorem preferred_node_characterization_witness :
    stickyInst.runningOn = some nodeA
    ∧ topLookup sampleTop nodeA.nid = some { node := nodeA, weight := 0, count := 0 }
    ∧ ((preferred_node stickyInst sampleTop 1 = some nodeA ↔
        (stickyInst.provisional = true ∧ stickyInst.failed = false ∧ nodeA.availStrict = true
          ∧ (0 : Nat) < 1))
       ∧ ∀ r, preferred_node stickyInst sampleTop 1 = some r → r = nodeA) :=
  ⟨rfl, rfl,
    (preferred_node_characterization stickyInst sampleTop 1).2 nodeA
      { node := nodeA, weight := 0, count := 0 } rfl rfl⟩

theorem early_step_assigned_le (maxPerNode optimalPerNode : Nat) (allColoc : Bool)
    (inst1 : Instance) (top : List NodeView) (assigned maxTotal : Nat)
    (h : assigned < maxTotal) :
    (early_step maxPerNode optimalPerNode allColoc inst1 top assigned).2.2 ≤ maxTotal := by
  unfold early_step
  cases hpn : preferred_node inst1 top optimalPerNode with
  | none => simpa using h.le
  | some current =>
    dsimp only
    rcases ha : assign_instance inst1 (some current) allColoc maxPerNode top with ⟨i2, t2, ok⟩
    cases ok
    · simpa using h.le
    · simpa using h

theorem assign_instances_early_le (coll : Collective)
    (maxTotal maxPerNode optimalPerNode : Nat) (allColoc : Bool) (l : List Instance)
    (top : List NodeView) (assigned : Nat) (h : assigned ≤ maxTotal) :
    (assign_instances_early coll maxTotal maxPerNode optimalPerNode allColoc l
        top assigned).2.2 ≤ maxTotal := by
  induction l generalizing top assigned with
  | nil => simpa [assign_instances_early] using h
  | cons inst rest ih =>
    simp only [assign_instances_early]
    by_cases hg : assigned < maxTotal
    · rw [if_pos hg]
      rcases hs : early_step maxPerNode optimalPerNode allColoc
          (append_parent_colocation coll inst allColoc) top assigned with ⟨i2, t2, a2⟩
      have ha2 : a2 ≤ maxTotal := by
        have := early_step_assigned_le maxPerNode optimalPerNode allColoc
          (append_parent_colocation coll inst allColoc) top assigned maxTotal hg
        rw [hs] at this
        exact this
      rcases hr : assign_instances_early coll maxTotal maxPerNode optimalPerNode allColoc
          rest t2 a2 with ⟨r2, t3, a3⟩
      have := ih t2 a2 ha2
      rw [hr] at this
      simpa using this
    · rw [if_neg hg]
      simpa using h

theorem assign_instances_final_le (maxTotal maxPerNode : Nat) (allColoc : Bool)
    (l : List Instance) (top : List NodeView) (assigned : Nat) (recs : List LocationRecord)
    (h : assigned ≤ maxTotal) :
    (assign_instances_final maxTotal maxPerNode allColoc l top assigned recs).2.2.1
      ≤ maxTotal := by
  induction l generalizing top assigned recs with
  | nil => simpa [assign_instances_final] using h
  | cons inst rest ih =>
    simp only [assign_instances_final]
    by_cases hp : !inst.provisional
    · rw [if_pos hp]
      rcases hr : assign_instances_final maxTotal maxPerNode allColoc rest top assigned recs
        with ⟨r2, t, a, r⟩
      have := ih top assigned recs h
      rw [hr] at this
      simpa using this
    · rw [if_neg hp]
      by_cases hge : assigned ≥ maxTotal
      · rw [if_pos hge]
        rcases resource_location_ban inst "collective_limit_reached" with ⟨inst2, rec⟩
        rcases hr : assign_instances_final maxTotal maxPerNode allColoc rest top assigned
            (recs ++ [rec]) with ⟨r2, t, a, r⟩
        have := ih top assigned (recs ++ [rec]) h
        rw [hr] at this
        simpa using this
      · rw [if_neg hge]
        rcases assign_instance inst none allColoc maxPerNode top with ⟨inst2, top2, ok⟩
        have hnext : (if ok then assigned + 1 else assigned) ≤ maxTotal := by
          cases ok <;> simp <;> omega
        rcases hr : assign_instances_final maxTotal maxPerNode allColoc rest top2
            (if ok then assigned + 1 else assigned) recs with ⟨r2, t, a, r⟩
        have := ih top2 (if ok then assigned + 1 else assigned) recs hnext
        rw [hr] at this
        simpa using this

theorem assign_instances_final_records (maxTotal maxPerNode : Nat) (allColoc : Bool)
    (l : List Instance) (top : List NodeView) (assigned : Nat) (recs : List LocationRecord)
    (r : LocationRecord)
    (h : r ∈ (assign_instances_final maxTotal maxPerNode allColoc l top assigned recs).2.2.2) :
    r ∈ recs ∨ (r.score = -INFINITY ∧ r.reason = "collective_limit_reached") := by
  induction l generalizing top assigned recs with
  | nil =>
    simp only [assign_instances_final] at h
    exact Or.inl h
  | cons inst rest ih =>
    simp only [assign_instances_final] at h
    by_cases hp : !inst.provisional
    · rw [if_pos hp] at h
      rcases hr : assign_instances_final maxTotal maxPerNode allColoc rest top assigned recs
        with ⟨r2, t, a, rr⟩
      rw [hr] at h
      simp only at h
      exact ih top assigned recs (by rw [hr]; exact h)
    · rw [if_neg hp] at h
      by_cases hge : assigned ≥ maxTotal
      · rw [if_pos hge] at h
        rcases hr : assign_instances_final maxTotal maxPerNode allColoc rest top assigned
            (recs ++ [{ rid := inst.rid, score := -INFINITY,
                        reason := "collective_limit_reached" }]) with ⟨r2, t, a, rr⟩
        simp only [resource_location_ban, hr] at h
        have := ih top assigned
          (recs ++ [{ rid := inst.rid, score := -INFINITY,
                      reason := "collective_limit_reached" }]) (by rw [hr]; exact h)
        rcases this with hin | hprop
        · rcases List.mem_append.mp hin with hin2 | hin2
          · exact Or.inl hin2
          · simp only [List.mem_singleton] at hin2
            subst hin2
            exact Or.inr ⟨rfl, rfl⟩
        · exact Or.inr hprop
      · rw [if_neg hge] at h
        rcases ha : assign_instance inst none allColoc maxPerNode top with ⟨inst2, top2, ok⟩
        rw [ha] at h
        rcases hr : assign_instances_final maxTotal maxPerNode allColoc rest top2
            (if ok then assigned + 1 else assigned) recs with ⟨r2, t, a, rr⟩
        rw [hr] at h
        simp only at h
        exact ih top2 (if ok then assigned + 1 else assigned) recs (by rw [hr]; exact h)

/-- C2 (counterexample): the reason recorded for an instance pinned once the
collective limit is reached is the tag "collective_limit_reached", not the
claimed "collective limit reached". -/
theorem pcmk__assign_instances_reason_counterexample :
    (pcmk__assign_instances sampleCollective [limitInst] 0 1).records.map
        LocationRecord.reason = ["collective_limit_reached"]
    ∧ "collective_limit_reached" ≠ "collective limit reached" := by
  constructor
  · decide
  · decide

theorem native_assign_none_eq (inst : Instance) (prefer : Option ClusterNode) (i2 : Instance)
    (h : native_assign inst prefer = (i2, none)) : i2 = inst := by
  unfold native_assign at h
  cases hc : native_assign_choose inst.allowedNodes (prefer.map ClusterNode.nid) with
  | none =>
    rw [hc] at h
    exact ((Prod.mk.injEq _ _ _ _).mp h).1.symm
  | some nv =>
    rw [hc] at h
    simp at h

theorem ban_fields (inst : Instance) (top : List NodeView) (m : Nat) :
    (ban_unavailable_allowed_nodes inst top m).provisional = inst.provisional
    ∧ (ban_unavailable_allowed_nodes inst top m).assignedNode = inst.assignedNode := by
  simp [ban_unavailable_allowed_nodes]

theorem assign_instance_prefer_arm_failure (banned : Instance) (p : ClusterNode)
    (top : List NodeView) (hbp : banned.provisional = true) (hbn : banned.assignedNode = none)
    (hfail : (assign_instance_prefer_arm banned p top).2.2 = false) :
    (assign_instance_prefer_arm banned p top).1.provisional = true
    ∧ (assign_instance_prefer_arm banned p top).1.assignedNode = none
    ∧ (assign_instance_prefer_arm banned p top).2.1 = top
    ∧ (assign_instance_prefer_arm banned p top).1.allowedNodes = banned.allowedNodes := by
  unfold assign_instance_prefer_arm at hfail ⊢
  rcases hna : native_assign banned (some p) with ⟨i2, c⟩
  rw [hna] at hfail
  cases c with
  | none =>
    have h2 : i2 = banned := native_assign_none_eq banned (some p) i2 hna
    subst h2
    exact ⟨hbp, hbn, rfl, rfl⟩
  | some chosen =>
    dsimp only at hfail ⊢
    by_cases hne : chosen.nid ≠ p.nid
    · rw [if_pos hne]
      exact ⟨rfl, rfl, rfl, rfl⟩
    · rw [if_neg hne] at hfail
      simp [assign_instance_finish] at hfail

/-- C6 (amended): when assign_instance is called with a preferred node on a
provisional, unassigned instance and fails, the instance ends the call
provisional and unassigned, the collective's table is untouched, and the
instance's allowed_nodes table is either untouched (the early prefer-lookup
failure) or equal to the table after ban_unavailable_allowed_nodes — the
rollback restores the snapshot taken after the ban, not the pre-call state. -/
theorem assign_instance_prefer_failure (inst : Instance) (p : ClusterNode) (allColoc : Bool)
    (maxPerNode : Nat) (top : List NodeView)
    (hprov : inst.provisional = true) (hnoloc : inst.assignedNode = none)
    (hfail : (assign_instance inst (some p) allColoc maxPerNode top).2.2 = false) :
    (assign_instance inst (some p) allColoc maxPerNode top).1.provisional = true
    ∧ (assign_instance inst (some p) allColoc maxPerNode top).1.assignedNode = none
    ∧ (assign_instance inst (some p) allColoc maxPerNode top).2.1 = top
    ∧ ((assign_instance inst (some p) allColoc maxPerNode top).1.allowedNodes
         = inst.allowedNodes
       ∨ (assign_instance inst (some p) allColoc maxPerNode top).1.allowedNodes
         = (ban_unavailable_allowed_nodes inst top maxPerNode).allowedNodes) := by
  unfold assign_instance at hfail ⊢
  simp only [hprov, Bool.not_true, Bool.false_eq_true, if_false] at hfail ⊢
  by_cases halloc : inst.allocating
  · simp only [halloc, if_true] at hfail ⊢
    simp [hprov, hnoloc]
  · simp only [halloc, Bool.false_eq_true, if_false] at hfail ⊢
    cases hfind : inst.allowedNodes.find? (fun nv => nv.node.nid == p.nid) with
    | none =>
      rw [hfind] at hfail
      simp [hprov, hnoloc]
    | some allowed =>
      rw [hfind] at hfail
      dsimp only at hfail ⊢
      by_cases hw : allowed.weight < 0
      · rw [if_pos hw] at hfail ⊢
        simp [hprov, hnoloc]
      · rw [if_neg hw] at hfail ⊢
        have hb := ban_fields inst top maxPerNode
        have := assign_instance_prefer_arm_failure
          (ban_unavailable_allowed_nodes inst top maxPerNode) p top
          (by rw [hb.1]; exact hprov) (by rw [hb.2]; exact hnoloc) hfail
        exact ⟨this.1, this.2.1, this.2.2.1, Or.inr this.2.2.2⟩

/-- C6 (counterexample): on the sample rollback scenario the preferred-node
assignment fails, yet the instance's allowed_nodes table is not identical to
its pre-call state — the restored snapshot already contains the -INFINITY ban
of the unavailable node. -/
theorem assign_instance_snapshot_counterexample :
    (assign_instance rollbackInst (some nodeA) false 1 sampleTop).2.2 = false
    ∧ (assign_instance rollbackInst (some nodeA) false 1 sampleTop).1.allowedNodes
        ≠ rollbackInst.allowedNodes := by
  constructor
  · decide
  · decide

/-- C6 (witness): the amended failure theorem applies to the sample rollback
scenario. -/
theorem assign_instance_prefer_failure_witness :
    rollbackInst.provisional = true
    ∧ rollbackInst.assignedNode = none
    ∧ (assign_instance rollbackInst (some nodeA) false 1 sampleTop).2.2 = false
    ∧ ((assign_instance rollbackInst (some nodeA) false 1 sampleTop).1.provisional = true
       ∧ (assign_instance rollbackInst (some nodeA) false 1 sampleTop).1.assignedNode = none
       ∧ (assign_instance rollbackInst (some nodeA) false 1 sampleTop).2.1 = sampleTop
       ∧ ((assign_instance rollbackInst (some nodeA) false 1 sampleTop).1.allowedNodes
            = rollbackInst.allowedNodes
          ∨ (assign_instance rollbackInst (some nodeA) false 1 sampleTop).1.allowedNodes
            = (ban_unavailable_allowed_nodes rollbackInst sampleTop 1).allowedNodes)) :=
  ⟨rfl, rfl, by decide,
    assign_instance_prefer_failure rollbackInst nodeA false 1 sampleTop rfl rfl (by decide)⟩

theorem choose_better_foldl_mem (prefer : Option Nat) (l : List NodeView)
    (acc : Option NodeView) (nv : NodeView)
    (h : l.foldl (choose_better prefer) acc = some nv) :
    acc = some nv ∨ nv ∈ l := by
  induction l generalizing acc with
  | nil => exact Or.inl h
  | cons c cs ih =>
    simp only [List.foldl_cons] at h
    rcases ih (choose_better prefer acc c) h with hacc | hmem
    · cases acc with
      | none =>
        simp only [choose_better] at hacc
        have : c = nv := by simpa using hacc
        exact Or.inr (this ▸ List.mem_cons_self c cs)
      | some b =>
        simp only [choose_better] at hacc
        by_cases hb : node_beats prefer c b
        · rw [if_pos hb] at hacc
          have : c = nv := by simpa using hacc
          exact Or.inr (this ▸ List.mem_cons_self c cs)
        · rw [if_neg hb] at hacc
          exact Or.inl hacc
    · exact Or.inr (List.mem_cons_of_mem _ hmem)

theorem native_assign_choose_mem (allowed : List NodeView) (prefer : Option Nat)
    (nv : NodeView) (h : native_assign_choose allowed prefer = some nv) :
    nv ∈ allowed ∧ -INFINITY < nv.weight := by
  unfold native_assign_choose at h
  rcases choose_better_foldl_mem prefer _ none nv h with hacc | hmem
  · simp at hacc
  · have := List.mem_filter.mp hmem
    exact ⟨this.1, by simpa using this.2⟩

theorem native_assign_spec_some (inst : Instance) (prefer : Option ClusterNode)
    (i2 : Instance) (c : ClusterNode) (h : native_assign inst prefer = (i2, some c)) :
    ∃ nv ∈ inst.allowedNodes, -INFINITY < nv.weight ∧ c = nv.node := by
  unfold native_assign at h
  cases hc : native_assign_choose inst.allowedNodes (prefer.map ClusterNode.nid) with
  | none =>
    rw [hc] at h
    simp at h
  | some nv =>
    rw [hc] at h
    have hmem := native_assign_choose_mem _ _ _ hc
    have hcn : c = nv.node := by
      have := congrArg Prod.snd h
      simpa using this.symm
    exact ⟨nv, hmem.1, hmem.2, hcn⟩

theorem ban_member_can_run (inst : Instance) (top : List NodeView) (m : Nat) (nv : NodeView)
    (h : nv ∈ (ban_unavailable_allowed_nodes inst top m).allowedNodes)
    (hw : -INFINITY < nv.weight) :
    nv ∈ inst.allowedNodes ∧ can_run_instance inst nv top m = true := by
  simp only [ban_unavailable_allowed_nodes, List.mem_map] at h
  rcases h with ⟨nv0, hmem, heq⟩
  by_cases hcr : can_run_instance inst nv0 top m
  · rw [if_pos hcr] at heq
    subst heq
    exact ⟨hmem, hcr⟩
  · rw [if_neg hcr] at heq
    subst heq
    simp at hw

theorem can_run_count_lt (inst : Instance) (top : List NodeView) (m : Nat) (nv : NodeView)
    (h : can_run_instance inst nv top m = true) :
    ∃ a, topLookup top nv.node.nid = some a ∧ a.count < m := by
  unfold can_run_instance at h
  by_cases ho : inst.orphan
  · simp [ho] at h
  · rw [if_neg ho] at h
    by_cases hav : nv.node.availLoose
    · rw [if_neg (by simp [hav])] at h
      cases ht : topLookup top nv.node.nid with
      | none =>
        rw [ht] at h
        simp at h
      | some a =>
        rw [ht] at h
        dsimp only at h
        by_cases hwlt : a.weight < 0
        · simp [hwlt] at h
        · rw [if_neg hwlt] at h
          by_cases hc : a.count ≥ m
          · simp [hc] at h
          · exact ⟨a, rfl, Nat.lt_of_not_le hc⟩
    · rw [if_pos (by simp [Bool.eq_false_iff.mpr hav])] at h
      simp at h

theorem topLookup_cons_pos (nv : NodeView) (rest : List NodeView) (nid : Nat)
    (h : (nv.node.nid == nid) = true) : topLookup (nv :: rest) nid = some nv := by
  simp [topLookup, List.find?_cons_of_pos, h]

theorem topLookup_cons_neg (nv : NodeView) (rest : List NodeView) (nid : Nat)
    (h : (nv.node.nid == nid) = false) : topLookup (nv :: rest) nid = topLookup rest nid := by
  simp only [topLookup]
  rw [List.find?_cons_of_neg]
  simp [h]

theorem increment_first_counts_le (top : List NodeView) (m : Nat) (nid : Nat)
    (hOK : ∀ x ∈ top, x.count ≤ m)
    (hlt : ∀ a, topLookup top nid = some a → a.count < m) :
    ∀ x ∈ increment_first_count top nid, x.count ≤ m := by
  induction top with
  | nil => simp [increment_first_count]
  | cons nv rest ih =>
    intro x hx
    by_cases heq : (nv.node.nid == nid) = true
    · have hnv : nv.count < m := hlt nv (topLookup_cons_pos nv rest nid heq)
      rw [increment_first_count, if_pos heq] at hx
      rcases List.mem_cons.mp hx with h1 | h2
      · subst h1
        simpa using hnv
      · exact hOK x (List.mem_cons_of_mem _ h2)
    · rw [increment_first_count, if_neg heq] at hx
      rcases List.mem_cons.mp hx with h1 | h2
      · subst h1
        exact hOK x (List.mem_cons_self _ _)
      · refine ih (fun y hy => hOK y (List.mem_cons_of_mem _ hy)) ?_ x h2
        intro a ha
        apply hlt
        rw [topLookup_cons_neg nv rest nid (Bool.eq_false_iff.mpr heq)]
        exact ha

theorem record_assignment_counts_le (top : List NodeView) (m : Nat) (c : ClusterNode)
    (hOK : ∀ x ∈ top, x.count ≤ m)
    (hlt : ∀ a, topLookup top c.nid = some a → a.count < m) :
    ∀ x ∈ record_assignment top c, x.count ≤ m := by
  unfold record_assignment
  cases ht : topLookup top c.nid with
  | none => exact hOK
  | some a => exact increment_first_counts_le top m c.nid hOK hlt

theorem ban_choose_bound (inst : Instance) (top : List NodeView) (m : Nat) :
    ∀ nv ∈ (ban_unavailable_allowed_nodes inst top m).allowedNodes,
      -INFINITY < nv.weight → ∃ a, topLookup top nv.node.nid = some a ∧ a.count < m := by
  intro nv hmem hw
  exact can_run_count_lt inst top m nv (ban_member_can_run inst top m nv hmem hw).2

theorem assign_instance_final_arm_counts_le (banned : Instance) (top : List NodeView)
    (m : Nat) (hOK : ∀ x ∈ top, x.count ≤ m)
    (hch : ∀ nv ∈ banned.allowedNodes, -INFINITY < nv.weight →
      ∃ a, topLookup top nv.node.nid = some a ∧ a.count < m) :
    ∀ x ∈ (assign_instance_final_arm banned top).2.1, x.count ≤ m := by
  unfold assign_instance_final_arm
  rcases hna : native_assign banned none with ⟨i2, c⟩
  cases c with
  | none => exact hOK
  | some chosen =>
    obtain ⟨nv, hmem, hw, hcn⟩ := native_assign_spec_some banned none i2 chosen hna
    refine record_assignment_counts_le top m chosen hOK ?_
    intro a ha
    rcases hch nv hmem hw with ⟨a2, ha2, hlt2⟩
    rw [hcn] at ha
    rw [ha] at ha2
    exact (Option.some_inj.mp ha2) ▸ hlt2

theorem assign_instance_prefer_arm_counts_le (banned : Instance) (p : ClusterNode)
    (top : List NodeView) (m : Nat) (hOK : ∀ x ∈ top, x.count ≤ m)
    (hch : ∀ nv ∈ banned.allowedNodes, -INFINITY < nv.weight →
      ∃ a, topLookup top nv.node.nid = some a ∧ a.count < m) :
    ∀ x ∈ (assign_instance_prefer_arm banned p top).2.1, x.count ≤ m := by
  unfold assign_instance_prefer_arm
  rcases hna : native_assign banned (some p) with ⟨i2, c⟩
  cases c with
  | none => exact hOK
  | some chosen =>
    dsimp only
    by_cases hne : chosen.nid ≠ p.nid
    · rw [if_pos hne]
      exact hOK
    · rw [if_neg hne]
      obtain ⟨nv, hmem, hw, hcn⟩ := native_assign_spec_some banned (some p) i2 chosen hna
      refine record_assignment_counts_le top m chosen hOK ?_
      intro a ha
      rcases hch nv hmem hw with ⟨a2, ha2, hlt2⟩
      rw [hcn] at ha
      rw [ha] at ha2
      exact (Option.some_inj.mp ha2) ▸ hlt2

theorem assign_instance_counts_le (inst : Instance) (prefer : Option ClusterNode)
    (allColoc : Bool) (m : Nat) (top : List NodeView) (hOK : ∀ x ∈ top, x.count ≤ m) :
    ∀ x ∈ (assign_instance inst prefer allColoc m top).2.1, x.count ≤ m := by
  unfold assign_instance
  by_cases hp : !inst.provisional
  · rw [if_pos hp]
    exact hOK
  · rw [if_neg hp]
    by_cases halloc : inst.allocating
    · rw [if_pos halloc]
      exact hOK
    · rw [if_neg halloc]
      cases prefer with
      | none =>
        exact assign_instance_final_arm_counts_le _ top m hOK (ban_choose_bound inst top m)
      | some p =>
        dsimp only
        cases hfind : inst.allowedNodes.find? (fun nv => nv.node.nid == p.nid) with
        | none => exact hOK
        | some allowed =>
          dsimp only
          by_cases hw : allowed.weight < 0
          · rw [if_pos hw]
            exact hOK
          · rw [if_neg hw]
            exact assign_instance_prefer_arm_counts_le _ p top m hOK
              (ban_choose_bound inst top m)

theorem early_step_counts_le (maxPerNode optimalPerNode : Nat) (allColoc : Bool)
    (inst1 : Instance) (top : List NodeView) (assigned : Nat)
    (hOK : ∀ x ∈ top, x.count ≤ maxPerNode) :
    ∀ x ∈ (early_step maxPerNode optimalPerNode allColoc inst1 top assigned).2.1,
      x.count ≤ maxPerNode := by
  unfold early_step
  cases hpn : preferred_node inst1 top optimalPerNode with
  | none => exact hOK
  | some current =>
    dsimp only
    rcases ha : assign_instance inst1 (some current) allColoc maxPerNode top with ⟨i2, t2, ok⟩
    have := assign_instance_counts_le inst1 (some current) allColoc maxPerNode top hOK
    rw [ha] at this
    exact this

theorem assign_instances_early_counts_le (coll : Collective)
    (maxTotal maxPerNode optimalPerNode : Nat) (allColoc : Bool) (l : List Instance)
    (top : List NodeView) (assigned : Nat) (hOK : ∀ x ∈ top, x.count ≤ maxPerNode) :
    ∀ x ∈ (assign_instances_early coll maxTotal maxPerNode optimalPerNode allColoc l
        top assigned).2.1, x.count ≤ maxPerNode := by
  induction l generalizing top assigned with
  | nil => simpa [assign_instances_early] using hOK
  | cons inst rest ih =>
    simp only [assign_instances_early]
    by_cases hg : assigned < maxTotal
    · rw [if_pos hg]
      rcases hs : early_step maxPerNode optimalPerNode allColoc
          (append_parent_colocation coll inst allColoc) top assigned with ⟨i2, t2, a2⟩
      have ht2 : ∀ x ∈ t2, x.count ≤ maxPerNode := by
        have := early_step_counts_le maxPerNode optimalPerNode allColoc
          (append_parent_colocation coll inst allColoc) top assigned hOK
        rw [hs] at this
        exact this
      rcases hr : assign_instances_early coll maxTotal maxPerNode optimalPerNode allColoc
          rest t2 a2 with ⟨r2, t3, a3⟩
      have := ih t2 a2 ht2
      rw [hr] at this
      exact this
    · rw [if_neg hg]
      exact hOK

theorem assign_instances_final_counts_le (maxTotal maxPerNode : Nat) (allColoc : Bool)
    (l : List Instance) (top : List NodeView) (assigned : Nat) (recs : List LocationRecord)
    (hOK : ∀ x ∈ top, x.count ≤ maxPerNode) :
    ∀ x ∈ (assign_instances_final maxTotal maxPerNode allColoc l top assigned recs).2.1,
      x.count ≤ maxPerNode := by
  induction l generalizing top assigned recs with
  | nil => simpa [assign_instances_final] using hOK
  | cons inst rest ih =>
    simp only [assign_instances_final]
    by_cases hp : !inst.provisional
    · rw [if_pos hp]
      rcases hr : assign_instances_final maxTotal maxPerNode allColoc rest top assigned recs
        with ⟨r2, t, a, r⟩
      have := ih top assigned recs hOK
      rw [hr] at this
      exact this
    · rw [if_neg hp]
      by_cases hge : assigned ≥ maxTotal
      · rw [if_pos hge]
        rcases resource_location_ban inst "collective_limit_reached" with ⟨inst2, rec⟩
        rcases hr : assign_instances_final maxTotal maxPerNode allColoc rest top assigned
            (recs ++ [rec]) with ⟨r2, t, a, r⟩
        have := ih top assigned (recs ++ [rec]) hOK
        rw [hr] at this
        exact this
      · rw [if_neg hge]
        rcases ha : assign_instance inst none allColoc maxPerNode top with ⟨inst2, top2, ok⟩
        have htop2 : ∀ x ∈ top2, x.count ≤ maxPerNode := by
          have := assign_instance_counts_le inst none allColoc maxPerNode top hOK
          rw [ha] at this
          exact this
        rcases hr : assign_instances_final maxTotal maxPerNode allColoc rest top2
            (if ok then assigned + 1 else assigned) recs with ⟨r2, t, a, r⟩
        have := ih top2 (if ok then assigned + 1 else assigned) recs htop2
        rw [hr] at this
        exact this

/-- C1: after pcmk__assign_instances, every node of the collective's
(top-allowed) table counts at most max_per_node instances:
can_run_instance bans any node whose count has reached max_per_node before
each assignment, and each successful assignment increments the chosen node's
count exactly once. -/
theorem pcmk__assign_instances_max_per_node (collective : Collective)
    (instances : List Instance) (maxTotal maxPerNode : Nat) :
    ∀ nv ∈ (pcmk__assign_instances collective instances maxTotal maxPerNode).top,
      nv.count ≤ maxPerNode := by
  unfold pcmk__assign_instances
  rcases h0 : reset_allowed_node_counts collective.allowedNodes with ⟨top0, availableNodes⟩
  have hOK0 : ∀ x ∈ top0, x.count ≤ maxPerNode := by
    have htop0 : top0 = collective.allowedNodes.map (fun nv => { nv with count := 0 }) := by
      have := congrArg Prod.fst h0
      simpa [reset_allowed_node_counts] using this.symm
    intro x hx
    rw [htop0] at hx
    rcases List.mem_map.mp hx with ⟨y, hy, hyx⟩
    subst hyx
    exact Nat.zero_le _
  rcases he : assign_instances_early collective maxTotal maxPerNode
      (optimal_per_node maxTotal availableNodes) (decide (maxTotal < availableNodes))
      instances top0 0 with ⟨insts1, top1, assigned1⟩
  have hOK1 : ∀ x ∈ top1, x.count ≤ maxPerNode := by
    have := assign_instances_early_counts_le collective maxTotal maxPerNode
      (optimal_per_node maxTotal availableNodes) (decide (maxTotal < availableNodes))
      instances top0 0 hOK0
    rw [he] at this
    exact this
  rcases hf : assign_instances_final maxTotal maxPerNode (decide (maxTotal < availableNodes))
      insts1 top1 assigned1 [] with ⟨insts2, top2, assigned2, recs⟩
  have hOK2 : ∀ x ∈ top2, x.count ≤ maxPerNode := by
    have := assign_instances_final_counts_le maxTotal maxPerNode
      (decide (maxTotal < availableNodes)) insts1 top1 assigned1 [] hOK1
    rw [hf] at this
    exact this
  simp only [h0, he, hf]
  exact hOK2

/-- C1 (witness): on the sample run, the node that received an instance is
still within the per-node cap. -/
theorem pcmk__assign_instances_max_per_node_witness :
    ({ node := nodeA, weight := 0, count := 1 } : NodeView)
      ∈ (pcmk__assign_instances sampleCollective [stickyInst, limitInst, limitInst] 3 1).top
    ∧ ({ node := nodeA, weight := 0, count := 1 } : NodeView).count ≤ 1 :=
  ⟨by decide,
    pcmk__assign_instances_max_per_node sampleCollective [stickyInst, limitInst, limitInst] 3 1
      { node := nodeA, weight := 0, count := 1 } (by decide)⟩

theorem scan_instance_actions_eq (actions : List PAction) (sta sto : Bool) :
    scan_instance_actions actions sta sto
      = (sta || actions.any is_starting_action, sto || actions.any is_stopping_action) := by
  induction actions generalizing sta sto with
  | nil => simp [scan_instance_actions]
  | cons a rest ih =>
    simp only [scan_instance_actions]
    by_cases hboth : sta && sto
    · rw [if_pos hboth]
      have h1 : sta = true := by
        cases sta
        · simp at hboth
        · rfl
      have h2 : sto = true := by
        cases sto
        · simp at hboth
        · rfl
      simp [h1, h2]
    · rw [if_neg hboth]
      by_cases hstart : (a.task == RSC_START) = true
      · rw [if_pos hstart, ih]
        have htask : a.task = RSC_START := by simpa using hstart
        have hstop : (a.task == RSC_STOP) = false := by
          simp [htask, RSC_START, RSC_STOP]
        simp [List.any_cons, is_starting_action, is_stopping_action, hstart, hstop,
          Bool.or_assoc, Bool.or_comm, Bool.or_left_comm]
      · rw [if_neg (by simpa using hstart)]
        by_cases hstop : (a.task == RSC_STOP) = true
        · rw [if_pos hstop, ih]
          have hstart' : (a.task == RSC_START) = false := Bool.eq_false_iff.mpr hstart
          simp [List.any_cons, is_starting_action, is_stopping_action, hstart', hstop,
            Bool.or_assoc, Bool.or_comm, Bool.or_left_comm]
        · rw [if_neg (by simpa using hstop), ih]
          have hstart' : (a.task == RSC_START) = false := Bool.eq_false_iff.mpr hstart
          have hstop' : (a.task == RSC_STOP) = false := Bool.eq_false_iff.mpr hstop
          simp [List.any_cons, is_starting_action, is_stopping_action, hstart', hstop']

theorem instance_all_set_restarting (s : IState) (h : instance_all_set s = true) :
    s.restarting = true := by
  simp only [instance_all_set, Bool.and_eq_true] at h
  exact h.1.2

mutual

theorem check_instance_state_restarting_eq (r : SRsc) (s : IState) :
    (check_instance_state r s).restarting
      = (s.restarting || (srsc_primitives r).any primitive_restarts) := by
  rw [check_instance_state.eq_def]
  dsimp only
  by_cases hall : instance_all_set s = true
  · rw [if_pos hall, instance_all_set_restarting s hall]
    simp
  · rw [if_neg hall]
    cases r with
    | primitive runningOn actions =>
      simp only [srsc_primitives, or_state, primitive_instance_state,
        scan_instance_actions_eq actions false false]
      simp [primitive_restarts]
    | collective children =>
      rw [check_children_state_restarting_eq children s]
      simp [srsc_primitives]

theorem check_children_state_restarting_eq (l : List SRsc) (s : IState) :
    (check_children_state l s).restarting
      = (s.restarting || (children_primitives l).any primitive_restarts) := by
  match l with
  | [] =>
    rw [check_children_state]
    simp [children_primitives]
  | c :: rest =>
    rw [check_children_state]
    by_cases hall : instance_all_set s = true
    · rw [if_pos hall, instance_all_set_restarting s hall]
      simp
    · rw [if_neg hall]
      rw [check_children_state_restarting_eq rest (check_instance_state c s)]
      rw [check_instance_state_restarting_eq c s]
      simp [children_primitives, List.any_append, Bool.or_assoc]

end

/-- C7: check_instance_state sets the restarting bit iff some single
primitive of the subtree contributes both the starting bit (a non-optional
runnable start action) and the stopping bit (a non-optional stop action that
is runnable or pseudo) — starting on one primitive and stopping on another
does not set restarting, which may otherwise only be set in the incoming
state. -/
theorem check_instance_state_restarting (r : SRsc) (s : IState) :
    (check_instance_state r s).restarting = true ↔
      (s.restarting = true
       ∨ ∃ p ∈ srsc_primitives r,
           p.2.any is_starting_action = true ∧ p.2.any is_stopping_action = true) := by
  rw [check_instance_state_restarting_eq r s]
  simp [primitive_restarts]

theorem summary_fold_spec (task : String) (node : Option Nat) (children : List CRsc)
    (flags : SummaryFlags) (action : PAction) (anyRunnable : Bool) :
    (summary_fold task node children flags action anyRunnable).1.optional
        = (flags.optional && !children.any (child_makes_mandatory task node))
    ∧ (summary_fold task node children flags action anyRunnable).2.1.optional
        = (action.optional && !(flags.optional && children.any (child_makes_mandatory task node)))
    ∧ (summary_fold task node children flags action anyRunnable).1.runnable = flags.runnable
    ∧ (summary_fold task node children flags action anyRunnable).1.pseudo = flags.pseudo := by
  induction children generalizing flags action anyRunnable with
  | nil => simp [summary_fold]
  | cons child rest ih =>
    simp only [summary_fold]
    cases hfa : find_first_action child.actions task
        (if child.hasChildren then none else node) with
    | none =>
      have hcm : child_makes_mandatory task node child = false := by
        simp [child_makes_mandatory, hfa]
      simp [List.any_cons, hcm, ih]
    | some childAction =>
      dsimp only
      have hcm : child_makes_mandatory task node child = !childAction.optional := by
        simp [child_makes_mandatory, hfa]
      by_cases hcond : flags.optional && !childAction.optional
      · rw [if_pos hcond]
        have hfo : flags.optional = true := by
          cases hf : flags.optional
          · simp [hf] at hcond
          · rfl
        have hco : childAction.optional = false := by
          cases hc : childAction.optional
          · rfl
          · simp [hc] at hcond
        rcases ih { flags with optional := false } { action with optional := false }
          (anyRunnable || childAction.runnable) with ⟨ih1, ih2, ih3, ih4⟩
        rw [ih1, ih2, ih3, ih4]
        simp [List.any_cons, hcm, hfo, hco]
      · rw [if_neg hcond]
        rcases ih flags action (anyRunnable || childAction.runnable) with ⟨ih1, ih2, ih3, ih4⟩
        rw [ih1, ih2, ih3, ih4]
        have : (flags.optional && !childAction.optional) = false :=
          Bool.eq_false_iff.mpr hcond
        cases hf : flags.optional
        · simp [List.any_cons, hcm, hf]
        · rw [hf] at this
          simp only [Bool.true_and] at this
          have hco : childAction.optional = true := by
            cases hc : childAction.optional
            · rw [hc] at this
              simp at this
            · rfl
          simp [List.any_cons, hcm, hf, hco]

/-- C8: summary_action_flags returns a summary whose optional flag is cleared
iff some child has an action of the collective action's task whose flags lack
optional, and in exactly that situation it also clears optional on the
underlying action (an already-mandatory action stays so). -/
theorem summary_action_flags_optional (action : PAction) (children : List CRsc)
    (node : Option Nat) :
    (summary_action_flags action children node).1.optional
        = !children.any (child_makes_mandatory (clone_child_action action) node)
    ∧ (summary_action_flags action children node).2.optional
        = (action.optional
            && !children.any (child_makes_mandatory (clone_child_action action) node)) := by
  unfold summary_action_flags
  rcases hf : summary_fold (clone_child_action action) node children
      { optional := true, runnable := true, pseudo := true } action false
    with ⟨flags, action2, anyRunnable⟩
  have hspec := summary_fold_spec (clone_child_action action) node children
    { optional := true, runnable := true, pseudo := true } action false
  rw [hf] at hspec
  rcases hspec with ⟨h1, h2, h3, h4⟩
  simp only at h1 h2
  dsimp only
  by_cases hr : !anyRunnable
  · rw [if_pos hr]
    cases node with
    | none => simpa using ⟨h1, h2⟩
    | some n => simpa using ⟨h1, h2⟩
  · rw [if_neg hr]
    simpa using ⟨h1, h2⟩

theorem option_list_step_foldl (filter : Nat) (sd sa : Bool) (opts : List ClusterOption)
    (out0 : List OutItem) (dep0 adv0 : List ClusterOption) :
    opts.foldl (option_list_step filter sd sa) (out0, dep0, adv0)
      = (out0 ++ entries_of (opts.filter (fun o => pcmk_all_flags_set o.flags filter
            && !pcmk_is_set o.flags pcmk__opt_deprecated
            && !pcmk_is_set o.flags pcmk__opt_advanced)),
         (opts.filter (fun o => pcmk_all_flags_set o.flags filter
            && pcmk_is_set o.flags pcmk__opt_deprecated && sd)).reverse ++ dep0,
         (opts.filter (fun o => pcmk_all_flags_set o.flags filter
            && !pcmk_is_set o.flags pcmk__opt_deprecated
            && pcmk_is_set o.flags pcmk__opt_advanced && sa)).reverse ++ adv0) := by
  induction opts generalizing out0 dep0 adv0 with
  | nil => simp [entries_of]
  | cons o rest ih =>
    simp only [List.foldl_cons]
    by_cases hpass : pcmk_all_flags_set o.flags filter
    · by_cases hdep : pcmk_is_set o.flags pcmk__opt_deprecated
      · by_cases hsd : sd = true
        · have hstep : option_list_step filter sd sa (out0, dep0, adv0) o
              = (out0, o :: dep0, adv0) := by
            simp [option_list_step, hpass, hdep, hsd]
          rw [hstep, ih]
          simp [List.filter_cons, hpass, hdep, hsd]
        · have hstep : option_list_step filter sd sa (out0, dep0, adv0) o
              = (out0, dep0, adv0) := by
            simp [option_list_step, hpass, hdep, Bool.eq_false_iff.mpr hsd]
          rw [hstep, ih]
          simp [List.filter_cons, hpass, hdep, Bool.eq_false_iff.mpr hsd]
      · by_cases hadv : pcmk_is_set o.flags pcmk__opt_advanced
        · by_cases hsa : sa = true
          · have hstep : option_list_step filter sd sa (out0, dep0, adv0) o
                = (out0, dep0, o :: adv0) := by
              simp [option_list_step, hpass, hdep, hadv, hsa]
            rw [hstep, ih]
            simp [List.filter_cons, hpass, hdep, hadv, hsa]
          · have hstep : option_list_step filter sd sa (out0, dep0, adv0) o
                = (out0, dep0, adv0) := by
              simp [option_list_step, hpass, hdep, hadv, Bool.eq_false_iff.mpr hsa]
            rw [hstep, ih]
            simp [List.filter_cons, hpass, hdep, hadv, Bool.eq_false_iff.mpr hsa]
        · have hstep : option_list_step filter sd sa (out0, dep0, adv0) o
              = (out0 ++ [OutItem.spacer, OutItem.optionEntry o.name], dep0, adv0) := by
            simp [option_list_step, hpass, hdep, hadv]
          rw [hstep, ih]
          simp [List.filter_cons, hpass, hdep, hadv, entries_of]
    · have hstep : option_list_step filter sd sa (out0, dep0, adv0) o
          = (out0, dep0, adv0) := by
        simp [option_list_step, hpass]
      rw [hstep, ih]
      simp [List.filter_cons, hpass]

/-- C9: the text option-list output buffers filtered advanced and deprecated
options out of the main pass and emits them afterwards in two trailing
groups headed ADVANCED OPTIONS and DEPRECATED OPTIONS (will be removed in a
future release), each group in original input order and emitted only when
requested (all, or the corresponding filter flag) and non-empty. -/
theorem option_list_default_as_spec (descShort descLong : String) (filter : Nat)
    (options : List ClusterOption) (all : Bool) :
    option_list_default descShort descLong filter options all
      = option_list_spec descShort descLong filter options all := by
  unfold option_list_default option_list_spec advanced_group_options
    deprecated_group_options option_list_main
  rw [option_list_step_foldl]
  simp only [List.append_nil, List.reverse_reverse, List.nil_append]
  have hmain : (fun o => pcmk_all_flags_set o.flags filter
        && !pcmk_is_set o.flags pcmk__opt_deprecated
        && !pcmk_is_set o.flags pcmk__opt_advanced) = option_shown_main filter := by
    funext o
    simp [option_shown_main]
  have hdep : (fun o => pcmk_all_flags_set o.flags filter
        && pcmk_is_set o.flags pcmk__opt_deprecated
        && show_deprecated_group filter all) = option_in_deprecated_group filter all := by
    funext o
    simp [option_in_deprecated_group]
  have hadv : (fun o => pcmk_all_flags_set o.flags filter
        && !pcmk_is_set o.flags pcmk__opt_deprecated
        && pcmk_is_set o.flags pcmk__opt_advanced
        && show_advanced_group filter all) = option_in_advanced_group filter all := by
    funext o
    simp [option_in_advanced_group]
  rw [hmain, hdep, hadv]

/-- C10: an option flagged both deprecated and advanced is classified as
deprecated only — it never enters the ADVANCED OPTIONS group, and it is
emitted under DEPRECATED OPTIONS exactly when it passes the filter and that
group is shown, because the deprecated check precedes the advanced one. -/
theorem option_both_flags_deprecated_only (filter : Nat) (options : List ClusterOption)
    (all : Bool) (o : ClusterOption)
    (hdep : pcmk_is_set o.flags pcmk__opt_deprecated = true)
    (hadv : pcmk_is_set o.flags pcmk__opt_advanced = true) :
    o ∉ advanced_group_options filter options all
    ∧ (o ∈ deprecated_group_options filter options all ↔
        (o ∈ options ∧ pcmk_all_flags_set o.flags filter = true
          ∧ show_deprecated_group filter all = true)) := by
  unfold advanced_group_options deprecated_group_options option_list_main
  rw [option_list_step_foldl]
  simp only [List.append_nil, List.reverse_reverse]
  constructor
  · intro hmem
    have := (List.mem_filter.mp hmem).2
    simp [hdep] at this
  · constructor
    · intro hmem
      have h1 := (List.mem_filter.mp hmem).1
      have h2 := (List.mem_filter.mp hmem).2
      simp only [Bool.and_eq_true] at h2
      exact ⟨h1, h2.1.1, h2.2⟩
    · intro ⟨h1, h2, h3⟩
      exact List.mem_filter.mpr ⟨h1, by simp [h2, hdep, h3]⟩

/-- C10 (witness): the sample option flagged both deprecated and advanced is
absent from the advanced group and present in the deprecated group when all
options are requested. -/
theorem option_both_flags_deprecated_only_witness :
    pcmk_is_set bothFlaggedOption.flags pcmk__opt_deprecated = true
    ∧ pcmk_is_set bothFlaggedOption.flags pcmk__opt_advanced = true
    ∧ (bothFlaggedOption ∉ advanced_group_options 0 [plainOption, bothFlaggedOption] true
       ∧ (bothFlaggedOption ∈ deprecated_group_options 0 [plainOption, bothFlaggedOption] true ↔
           (bothFlaggedOption ∈ [plainOption, bothFlaggedOption]
             ∧ pcmk_all_flags_set bothFlaggedOption.flags 0 = true
             ∧ show_deprecated_group 0 true = true))) :=
  ⟨by decide, by decide,
    option_both_flags_deprecated_only 0 [plainOption, bothFlaggedOption] true bothFlaggedOption
      (by decide) (by decide)⟩

theorem runnable_left_implies_guard (t : Nat)
    (h : pcmk_any_flags_set t pe_order_runnable_left = true) :
    pcmk_any_flags_set t (pe_order_runnable_left ||| pe_order_implies_then) = true := by
  simp only [pcmk_any_flags_set, pe_order_runnable_left, pe_order_implies_then, bne_iff_ne,
    ne_eq] at h ⊢
  intro hzero
  apply h
  apply Nat.eq_of_testBit_eq
  intro i
  rw [Nat.testBit_and, Nat.zero_testBit]
  by_cases hi8 : i = 8
  · subst hi8
    have h8 : (t &&& (256 ||| 32)).testBit 8 = false := by
      rw [hzero]
      exact Nat.zero_testBit 8
    rw [Nat.testBit_and] at h8
    have h288 : ((256 ||| 32 : Nat)).testBit 8 = true := by decide
    rw [h288, Bool.and_true] at h8
    rw [h8, Bool.false_and]
  · have h256 : (256 : Nat).testBit i = false := by
      have he : (256 : Nat) = 2 ^ 8 := by norm_num
      rw [he]
      exact Nat.testBit_two_pow_of_ne (fun hEq => hi8 hEq.symm)
    rw [h256, Bool.and_false]

theorem interleave_child_step_pins (first thenA : OAction) (node : Option Nat)
    (orderType : Nat) (thenChild : ORsc) (edges : List OrderEdge) (changed : Nat)
    (hun : find_compatible_child thenChild first.rscChildren RscRole.unknown false = none)
    (hflag : pcmk_any_flags_set orderType (pe_order_runnable_left ||| pe_order_implies_then)
      = true) :
    (interleave_child_step first thenA node orderType false thenChild
        edges changed).1.pinnedMinusInf = true := by
  unfold interleave_child_step
  rw [hun]
  dsimp only
  rw [if_pos hflag]
  rfl

theorem interleave_children_pins (first thenA : OAction) (node : Option Nat)
    (orderType : Nat) (cs : List ORsc) (edges : List OrderEdge) (changed : Nat)
    (i : Nat) (fallback : ORsc) (hi : i < cs.length)
    (hflag : pcmk_any_flags_set orderType (pe_order_runnable_left ||| pe_order_implies_then)
      = true)
    (hun : find_compatible_child (cs.getD i fallback) first.rscChildren
        RscRole.unknown false = none) :
    ((interleave_children first thenA node orderType false cs edges changed).1.getD i
        fallback).pinnedMinusInf = true := by
  induction cs generalizing i edges changed with
  | nil => simp at hi
  | cons c rest ih =>
    simp only [interleave_children]
    rcases hs : interleave_child_step first thenA node orderType false c edges changed
      with ⟨c2, e2, ch2⟩
    rcases hr : interleave_children first thenA node orderType false rest e2 ch2
      with ⟨r2, e3, ch3⟩
    cases i with
    | zero =>
      simp only [List.getD_cons_zero] at hun ⊢
      have := interleave_child_step_pins first thenA node orderType c edges changed hun hflag
      rw [hs] at this
      exact this
    | succ n =>
      simp only [List.getD_cons_succ] at hun ⊢
      have := ih e2 ch2 n (by simpa using Nat.lt_of_succ_lt_succ hi) hun
      rw [hr] at this
      exact this

/-- C3 (amended): for an interleaved ordering whose type includes
runnable_left and whose first action is not a current (stopped or demoted)
pairing, every then child with no compatible first child is pinned to
-INFINITY (inhibited from being active); when the first action's uuid ends in
_stopped_0 or _demoted_0 the unmatched then children are instead ignored. -/
theorem multi_update_interleave_pins_unmatched (first thenA : OAction) (node : Option Nat)
    (filter orderType : Nat) (i : Nat) (fallback : ORsc)
    (hi : i < thenA.rscChildren.length)
    (hleft : pcmk_any_flags_set orderType pe_order_runnable_left = true)
    (hcur : (pcmk__ends_with first.act.uuid "_stopped_0"
              || pcmk__ends_with first.act.uuid "_demoted_0") = false)
    (hun : find_compatible_child (thenA.rscChildren.getD i fallback) first.rscChildren
        RscRole.unknown false = none) :
    (((multi_update_interleave_actions first thenA node filter orderType).1).getD i
        fallback).pinnedMinusInf = true := by
  unfold multi_update_interleave_actions
  rw [hcur]
  exact interleave_children_pins first thenA node orderType thenA.rscChildren []
    pcmk__updated_none i fallback hi (runnable_left_implies_guard orderType hleft) hun

/-- C3 (counterexample): an interleaved ordering whose type includes
runnable_left but whose first action's uuid ends in _stopped_0 leaves its
unmatched then child unpinned — the current pairing ignores it instead of
forcing it to -INFINITY, contradicting the claim as stated. -/
theorem multi_update_interleave_current_ignores :
    pcmk_any_flags_set pe_order_runnable_left pe_order_runnable_left = true
    ∧ find_compatible_child lonelyThenChild stoppedFirstAction.rscChildren
        RscRole.unknown true = none
    ∧ find_compatible_child lonelyThenChild stoppedFirstAction.rscChildren
        RscRole.unknown false = none
    ∧ (multi_update_interleave_actions stoppedFirstAction lonelyThenAction none 0
        pe_order_runnable_left).1 = [lonelyThenChild]
    ∧ lonelyThenChild.pinnedMinusInf = false := by
  refine ⟨by decide, by decide, by decide, ?_, by decide⟩
  decide

/-- C3 (witness): on the non-current sample (first uuid C1_start_0) the
unmatched then child is pinned. -/
theorem multi_update_interleave_pins_unmatched_witness :
    0 < lonelyThenStartAction.rscChildren.length
    ∧ pcmk_any_flags_set pe_order_runnable_left pe_order_runnable_left = true
    ∧ (pcmk__ends_with startFirstAction.act.uuid "_stopped_0"
        || pcmk__ends_with startFirstAction.act.uuid "_demoted_0") = false
    ∧ find_compatible_child (lonelyThenStartAction.rscChildren.getD 0 lonelyThenChild)
        startFirstAction.rscChildren RscRole.unknown false = none
    ∧ (((multi_update_interleave_actions startFirstAction lonelyThenStartAction none 0
          pe_order_runnable_left).1).getD 0 lonelyThenChild).pinnedMinusInf = true :=
  ⟨by decide, by decide, by decide, by decide,
    multi_update_interleave_pins_unmatched startFirstAction lonelyThenStartAction none 0
      pe_order_runnable_left 0 lonelyThenChild (by decide) (by decide) (by decide) (by decide)⟩

theorem native_assign_some_cleared (inst : Instance) (prefer : Option ClusterNode)
    (i2 : Instance) (c : ClusterNode) (h : native_assign inst prefer = (i2, some c)) :
    i2.provisional = false := by
  unfold native_assign at h
  cases hc : native_assign_choose inst.allowedNodes (prefer.map ClusterNode.nid) with
  | none =>
    rw [hc] at h
    simp at h
  | some nv =>
    rw [hc] at h
    have h1 : ({ inst with provisional := false, assignedNode := some nv.node } : Instance)
        = i2 := congrArg Prod.fst h
    rw [← h1]

theorem assign_instance_none_success_iff (inst : Instance) (allColoc : Bool) (m : Nat)
    (top : List NodeView) (hp : inst.provisional = true) :
    (assign_instance inst none allColoc m top).2.2
      = !(assign_instance inst none allColoc m top).1.provisional := by
  unfold assign_instance
  simp only [hp, Bool.not_true, Bool.false_eq_true, if_false]
  by_cases halloc : inst.allocating
  · rw [if_pos halloc]
    simp [hp]
  · rw [if_neg halloc]
    unfold assign_instance_final_arm
    rcases hna : native_assign (ban_unavailable_allowed_nodes inst top m) none with ⟨i2, c⟩
    cases c with
    | none =>
      have h2 : i2 = ban_unavailable_allowed_nodes inst top m :=
        native_assign_none_eq _ none i2 hna
      subst h2
      simp [ban_unavailable_allowed_nodes, hp]
    | some chosen =>
      have h2 : i2.provisional = false := native_assign_some_cleared _ none i2 chosen hna
      simp [assign_instance_finish, h2]

theorem assign_instances_final_at_limit (maxTotal maxPerNode : Nat) (allColoc : Bool)
    (l : List Instance) (top : List NodeView) (assigned : Nat) (recs : List LocationRecord)
    (h : maxTotal ≤ assigned) :
    assign_instances_final maxTotal maxPerNode allColoc l top assigned recs
      = (l.map (fun inst => if inst.provisional = true then
            (resource_location_ban inst "collective_limit_reached").1 else inst),
         top, assigned,
         recs ++ (l.filter (fun inst => inst.provisional)).map
           (fun inst => { rid := inst.rid, score := -INFINITY,
                          reason := "collective_limit_reached" })) := by
  induction l generalizing recs with
  | nil => simp [assign_instances_final]
  | cons inst rest ih =>
    simp only [assign_instances_final]
    by_cases hp : !inst.provisional
    · have hp' : inst.provisional = false := by simpa using hp
      rw [if_pos hp, ih recs]
      simp [List.filter_cons, hp']
    · have hp' : inst.provisional = true := by
        cases hpp : inst.provisional
        · rw [hpp] at hp
          simp at hp
        · rfl
      rw [if_neg hp, if_pos h]
      dsimp only [resource_location_ban]
      rw [ih]
      simp [List.filter_cons, hp', resource_location_ban]

theorem assign_instances_final_assigned_eq (maxTotal maxPerNode : Nat) (allColoc : Bool)
    (l : List Instance) (top : List NodeView) (assigned : Nat) (recs : List LocationRecord) :
    (assign_instances_final maxTotal maxPerNode allColoc l top assigned recs).2.2.1
      = assigned
        + ((l.zip (assign_instances_final maxTotal maxPerNode allColoc l top assigned
            recs).1).filter (fun p => p.1.provisional && !p.2.provisional)).length := by
  induction l generalizing top assigned recs with
  | nil => simp [assign_instances_final]
  | cons inst rest ih =>
    simp only [assign_instances_final]
    by_cases hp : !inst.provisional
    · have hp' : inst.provisional = false := by simpa using hp
      rw [if_pos hp]
      rcases hr : assign_instances_final maxTotal maxPerNode allColoc rest top assigned recs
        with ⟨rest2, t, a, r⟩
      have hih := ih top assigned recs
      rw [hr] at hih
      simpa [List.zip_cons_cons, List.filter_cons, hp'] using hih
    · have hp' : inst.provisional = true := by
        cases hpp : inst.provisional
        · rw [hpp] at hp
          simp at hp
        · rfl
      rw [if_neg hp]
      by_cases hge : assigned ≥ maxTotal
      · rw [if_pos hge]
        dsimp only [resource_location_ban]
        rcases hr : assign_instances_final maxTotal maxPerNode allColoc rest top assigned
            (recs ++ [({ rid := inst.rid, score := -INFINITY,
                         reason := "collective_limit_reached" } : LocationRecord)])
          with ⟨rest2, t, a, r⟩
        have hih := ih top assigned
          (recs ++ [({ rid := inst.rid, score := -INFINITY,
                       reason := "collective_limit_reached" } : LocationRecord)])
        rw [hr] at hih
        simpa [List.zip_cons_cons, List.filter_cons, hp'] using hih
      · rw [if_neg hge]
        rcases ha : assign_instance inst none allColoc maxPerNode top with ⟨inst2, top2, ok⟩
        have hok : ok = !inst2.provisional := by
          have := assign_instance_none_success_iff inst allColoc maxPerNode top hp'
          rw [ha] at this
          simpa using this
        subst hok
        rcases hr : assign_instances_final maxTotal maxPerNode allColoc rest top2
            (if !inst2.provisional then assigned + 1 else assigned) recs
          with ⟨rest2, t, a, r⟩
        have hih := ih top2 (if !inst2.provisional then assigned + 1 else assigned) recs
        rw [hr] at hih
        cases hi2 : inst2.provisional
        · simp only [hi2, Bool.not_false, if_true] at hih
          simp only [List.zip_cons_cons, List.filter_cons, hp', hi2]
          simp [hih]
          omega
        · simp only [hi2, Bool.not_true, Bool.false_eq_true, if_false] at hih
          simp only [List.zip_cons_cons, List.filter_cons, hp', hi2]
          simp [hih]

/-- C2 (amended): pcmk__assign_instances counts at most max_total
assignments; every record it pins carries score -INFINITY and the reason
"collective_limit_reached" (the source's reason tag, with underscores); once
the assigned count has met max_total, the rest of the final pass assigns
nothing — it leaves the table and the count untouched and turns exactly each
still-provisional instance into its -INFINITY-pinned version, appending its
record in order; pinning changes neither provisional nor the location, so the
instance stays unassigned; and the final pass's count rises by exactly the
number of instances it successfully assigns (those that go from provisional
to placed). -/
theorem pcmk__assign_instances_limit (collective : Collective) (instances : List Instance)
    (maxTotal maxPerNode : Nat) :
    (pcmk__assign_instances collective instances maxTotal maxPerNode).assigned ≤ maxTotal
    ∧ (∀ r ∈ (pcmk__assign_instances collective instances maxTotal maxPerNode).records,
        r.score = -INFINITY ∧ r.reason = "collective_limit_reached")
    ∧ (∀ (allColoc : Bool) (l : List Instance) (top : List NodeView) (assigned : Nat)
        (recs : List LocationRecord), maxTotal ≤ assigned →
        assign_instances_final maxTotal maxPerNode allColoc l top assigned recs
          = (l.map (fun inst => if inst.provisional = true then
                (resource_location_ban inst "collective_limit_reached").1 else inst),
             top, assigned,
             recs ++ (l.filter (fun inst => inst.provisional)).map
               (fun inst => { rid := inst.rid, score := -INFINITY,
                              reason := "collective_limit_reached" })))
    ∧ (∀ inst : Instance,
        (resource_location_ban inst "collective_limit_reached").1.provisional
            = inst.provisional
        ∧ (resource_location_ban inst "collective_limit_reached").1.assignedNode
            = inst.assignedNode)
    ∧ (∀ (allColoc : Bool) (l : List Instance) (top : List NodeView) (assigned : Nat)
        (recs : List LocationRecord),
        (assign_instances_final maxTotal maxPerNode allColoc l top assigned recs).2.2.1
          = assigned
            + ((l.zip (assign_instances_final maxTotal maxPerNode allColoc l top assigned
                recs).1).filter (fun p => p.1.provisional && !p.2.provisional)).length) := by
  refine ⟨?_, ?_, ?_, ?_, ?_⟩
  · unfold pcmk__assign_instances
    rcases h0 : reset_allowed_node_counts collective.allowedNodes with ⟨top0, availableNodes⟩
    rcases he : assign_instances_early collective maxTotal maxPerNode
        (optimal_per_node maxTotal availableNodes) (decide (maxTotal < availableNodes))
        instances top0 0 with ⟨insts1, top1, assigned1⟩
    have ha1 : assigned1 ≤ maxTotal := by
      have := assign_instances_early_le collective maxTotal maxPerNode
        (optimal_per_node maxTotal availableNodes) (decide (maxTotal < availableNodes))
        instances top0 0 (Nat.zero_le _)
      rw [he] at this
      exact this
    rcases hf : assign_instances_final maxTotal maxPerNode
        (decide (maxTotal < availableNodes)) insts1 top1 assigned1 []
      with ⟨insts2, top2, assigned2, recs⟩
    simp only [h0, he, hf]
    have := assign_instances_final_le maxTotal maxPerNode (decide (maxTotal < availableNodes))
      insts1 top1 assigned1 [] ha1
    rw [hf] at this
    exact this
  · unfold pcmk__assign_instances
    rcases h0 : reset_allowed_node_counts collective.allowedNodes with ⟨top0, availableNodes⟩
    rcases he : assign_instances_early collective maxTotal maxPerNode
        (optimal_per_node maxTotal availableNodes) (decide (maxTotal < availableNodes))
        instances top0 0 with ⟨insts1, top1, assigned1⟩
    rcases hf : assign_instances_final maxTotal maxPerNode
        (decide (maxTotal < availableNodes)) insts1 top1 assigned1 []
      with ⟨insts2, top2, assigned2, recs⟩
    simp only [h0, he, hf]
    intro r hr
    have := assign_instances_final_records maxTotal maxPerNode
      (decide (maxTotal < availableNodes)) insts1 top1 assigned1 [] r (by rw [hf]; exact hr)
    rcases this with hin | hprop
    · simp at hin
    · exact hprop
  · intro allColoc l top assigned recs h
    exact assign_instances_final_at_limit maxTotal maxPerNode allColoc l top assigned recs h
  · intro inst
    exact ⟨rfl, rfl⟩
  · intro allColoc l top assigned recs
    exact assign_instances_final_assigned_eq maxTotal maxPerNode allColoc l top assigned recs

/-- C2 (witness): on the sample input with max_total zero, the counted
assignments stay within the limit, the pinned record is present with score
-INFINITY and the underscore reason, and the at-limit final pass pins the
single provisional instance exactly as the closed form states. -/
theorem pcmk__assign_instances_limit_witness :
    (pcmk__assign_instances sampleCollective [limitInst] 0 1).assigned ≤ 0
    ∧ ({ rid := 11, score := -INFINITY, reason := "collective_limit_reached" } : LocationRecord)
        ∈ (pcmk__assign_instances sampleCollective [limitInst] 0 1).records
    ∧ (({ rid := 11, score := -INFINITY,
          reason := "collective_limit_reached" } : LocationRecord).score = -INFINITY
        ∧ ({ rid := 11, score := -INFINITY,
             reason := "collective_limit_reached" } : LocationRecord).reason
            = "collective_limit_reached")
    ∧ (0 : Nat) ≤ 0
    ∧ assign_instances_final 0 1 false [limitInst] sampleTop 0 []
        = ([limitInst].map (fun inst => if inst.provisional = true then
              (resource_location_ban inst "collective_limit_reached").1 else inst),
           sampleTop, 0,
           [] ++ ([limitInst].filter (fun inst => inst.provisional)).map
             (fun inst => { rid := inst.rid, score := -INFINITY,
                            reason := "collective_limit_reached" })) :=
  ⟨(pcmk__assign_instances_limit sampleCollective [limitInst] 0 1).1,
   by decide,
   (pcmk__assign_instances_limit sampleCollective [limitInst] 0 1).2.1
     { rid := 11, score := -INFINITY, reason := "collective_limit_reached" } (by decide),
   by decide,
   (pcmk__assign_instances_limit sampleCollective [limitInst] 0 1).2.2.1
     false [limitInst] sampleTop 0 [] (by decide)⟩

end Pacemaker
